import Mathlib

/-!
# GENIE: interaction-list enumeration and event-record history

A shallow embedding of

* `DISInteractionListGenerator::CreateInteractionList`
  (src/EVGModules/DISInteractionListGenerator.cxx), and
* `GHepRecordHistory` (src/GHEP/GHepRecordHistory.cxx),

followed by the properties established about them.

Conventions.  A null pointer result (`return 0`) is `none`.  The C++ `int`
values handled here (PDG codes, Z, N, step keys) are only compared, never
computed with, so they are plain integers.  Log statements write to a side
channel that is never read back and are left out.
-/

namespace genie

/-! ## Collaborators of the interaction-list generator -/

/-- The parts of PDG/PDGCodes.h and PDG/PDGUtils.h that the generator uses.
Neither header belongs to the sources at hand, so the two nucleon codes and the
two probe predicates are parameters of the embedding. -/
structure PDGLibrary where
  kPdgProton : Int
  kPdgNeutron : Int
  IsNeutrino : Int → Bool
  IsAntiNeutrino : Int → Bool

/-- The registry interface used through `fConfig`: whether a key exists and the
boolean stored under a key.  The registry class is not part of the sources at
hand, so both accessors are parameters. -/
structure Registry where
  Exists : String → Bool
  GetBool : String → Bool

/-- Scattering types named by Interaction/ScatteringType.h (only
`kScDeepInelastic` occurs in the generator). -/
inductive ScatteringType_t where
  | kScNull
  | kScQuasiElastic
  | kScDeepInelastic
  | kScResonant
  | kScCoherent
  deriving DecidableEq

/-- Interaction types named by Interaction/InteractionType.h (only `kIntWeakCC`
and `kIntWeakNC` occur in the generator). -/
inductive InteractionType_t where
  | kIntNull
  | kIntEM
  | kIntWeakCC
  | kIntWeakNC
  deriving DecidableEq

/-- Target: proton count, neutron count and the struck-nucleon code. -/
structure Target where
  Z : Int
  N : Int
  fStruckNucPDG : Int
  deriving DecidableEq

/-- Modelled from the spec: `Target::SetStruckNucleonPDGCode` (Target is not part
of the sources at hand) binds the struck nucleon into the target. -/
def Target.SetStruckNucleonPDGCode (t : Target) (pdgc : Int) : Target :=
  { t with fStruckNucPDG := pdgc }

/-- Initial state: probe species code and target. -/
structure InitialState where
  fProbePdgC : Int
  fTarget : Target
  deriving DecidableEq

/-- Modelled from the spec: accessor `InitialState::GetProbePDGCode` of the probe
species code (InitialState is not part of the sources at hand). -/
def InitialState.GetProbePDGCode (s : InitialState) : Int := s.fProbePdgC

/-- Modelled from the spec: accessor `InitialState::GetTargetPtr`, read as the
target it points to (InitialState is not part of the sources at hand). -/
def InitialState.GetTargetPtr (s : InitialState) : Target := s.fTarget

/-- Process classification `ProcessInfo(scattering type, interaction type)`. -/
structure ProcessInfo where
  fScatteringType : ScatteringType_t
  fInteractionType : InteractionType_t
  deriving DecidableEq

/-- Exclusive final-state tag; a default-constructed tag is not a charm tag. -/
structure XclsTag where
  fIsCharmEvent : Bool
  deriving DecidableEq

/-- Modelled from the spec: the default constructor `XclsTag exclusive_tag;`
(XclsTag is not part of the sources at hand) gives a tag that is not charm. -/
def XclsTag.default : XclsTag := { fIsCharmEvent := false }

/-- Modelled from the spec: `XclsTag::SetCharm` makes the tag the charm tag. -/
def XclsTag.SetCharm (_t : XclsTag) : XclsTag := { fIsCharmEvent := true }

/-- Interaction: its own copy of the initial state, the process classification
and the exclusive tag, which is absent until `SetExclusiveTag` is called. -/
structure Interaction where
  fInitialState : InitialState
  fProcInfo : ProcessInfo
  fExclusiveTag : Option XclsTag
  deriving DecidableEq

/-- Modelled from the spec: the constructor `Interaction(init_state, proc_info)`
(Interaction is not part of the sources at hand) copies both arguments; the
exclusive tag is absent by default. -/
def Interaction.new (init_state : InitialState) (proc_info : ProcessInfo) : Interaction :=
  { fInitialState := init_state, fProcInfo := proc_info, fExclusiveTag := none }

/-- Modelled from the spec: `Interaction::SetExclusiveTag` attaches the tag. -/
def Interaction.SetExclusiveTag (i : Interaction) (tag : XclsTag) : Interaction :=
  { i with fExclusiveTag := some tag }

/-- Lines 96-98: the struck nucleon is set on the target of the interaction's
own initial state. -/
def Interaction.setStruckNucleon (i : Interaction) (struck_nucleon : Int) : Interaction :=
  { i with fInitialState :=
      { i.fInitialState with
        fTarget := i.fInitialState.GetTargetPtr.SetStruckNucleonPDGCode struck_nucleon } }

/-- The interaction list, in insertion order. -/
abbrev InteractionList := List Interaction

/-! ## DISInteractionListGenerator -/

namespace DISInteractionListGenerator

/-- Lines 54-59: a flag is the stored boolean when its key exists, false
otherwise. -/
def readFlag (fConfig : Registry) (key : String) : Bool :=
  if fConfig.Exists key then fConfig.GetBool key else false

/-- Lines 61-68: charged current wins over neutral current; with neither there
is no interaction type. -/
def selectInteractionType (isCC isNC : Bool) : Option InteractionType_t :=
  if isCC then some InteractionType_t.kIntWeakCC
  else if isNC then some InteractionType_t.kIntWeakNC
  else none

/-- Lines 93-104: the interaction built for one struck nucleon. -/
def buildInteraction (init_state : InitialState) (inttype : InteractionType_t)
    (isCharm : Bool) (struck_nucleon : Int) : Interaction :=
  let proc_info : ProcessInfo :=
    { fScatteringType := ScatteringType_t.kScDeepInelastic, fInteractionType := inttype }
  let interaction := (Interaction.new init_state proc_info).setStruckNucleon struck_nucleon
  if isCharm then interaction.SetExclusiveTag XclsTag.default.SetCharm else interaction

/-- Body of the loop of lines 86-107 for one entry of `nuclpdg`. -/
def loopBody (lib : PDGLibrary) (init_state : InitialState) (inttype : InteractionType_t)
    (isCharm hasP hasN : Bool) (intlist : InteractionList) (struck_nucleon : Int) :
    InteractionList :=
  if (struck_nucleon == lib.kPdgProton && hasP) ||
     (struck_nucleon == lib.kPdgNeutron && hasN) then
    intlist ++ [buildInteraction init_state inttype isCharm struck_nucleon]
  else intlist

/-- The function `DISInteractionListGenerator::CreateInteractionList`, lines 48-116. -/
def CreateInteractionList (lib : PDGLibrary) (fConfig : Registry)
    (init_state : InitialState) : Option InteractionList :=
  let isCC := readFlag fConfig "is-CC"
  let isNC := readFlag fConfig "is-NC"
  let isCharm := readFlag fConfig "is-Charm"
  match selectInteractionType isCC isNC with
  | none => none
  | some inttype =>
    let nupdg := init_state.GetProbePDGCode
    let target := init_state.GetTargetPtr
    if !lib.IsNeutrino nupdg && !lib.IsAntiNeutrino nupdg then none
    else
      let hasP := decide (target.Z > 0)
      let hasN := decide (target.N > 0)
      let nuclpdg : List Int := [lib.kPdgProton, lib.kPdgNeutron]
      let intlist : InteractionList :=
        nuclpdg.foldl (loopBody lib init_state inttype isCharm hasP hasN) []
      if intlist.length == 0 then none else some intlist

end DISInteractionListGenerator

/-! ## GHepRecordHistory

The class derives from `map<int, GHepRecord*>` and owns the records its entries
point to.  The embedding is parametric in the type `Rec` of record values
(GHepRecord is not part of the sources at hand); a stored pointer is read as the
record value it owns.
-/

/-- Outcome of a member function whose loop may use an iterator after the
element it points to was erased.  `returned s` is a normal return in state `s`;
`undefinedBehaviour s` says that in state `s` the execution performed a step the
C++ standard leaves undefined, after which nothing is guaranteed. -/
inductive Exec (σ : Type) where
  | returned (s : σ)
  | undefinedBehaviour (s : σ)
  deriving DecidableEq

/-- The base class `map<int, GHepRecord*>`: its entries in iteration order, which
for a map is ascending key order. -/
abbrev SnapshotMap (Rec : Type) := List (Int × Rec)

namespace SnapshotMap

variable {Rec : Type}

/-- The representation invariant of a map: keys strictly ascending (so unique). -/
def WellFormed (m : SnapshotMap Rec) : Prop := (m.map Prod.fst).Pairwise (· < ·)

/-- The key set, in iteration order. -/
def keys (m : SnapshotMap Rec) : List Int := m.map Prod.fst

/-- Member `map::find`, read as the record found, or none for `end()`. -/
def find : SnapshotMap Rec → Int → Option Rec
  | [], _ => none
  | (k, r) :: rest, step => if step = k then some r else find rest step

/-- Member `map::count`: 1 when the key is present, else 0. -/
def count (m : SnapshotMap Rec) (step : Int) : Nat :=
  if (m.find step).isSome then 1 else 0

/-- Member `map::insert(value_type)`: a new key is put at its place in key order;
a key that is already present keeps its entry. -/
def insert : SnapshotMap Rec → Int → Rec → SnapshotMap Rec
  | [], step, snapshot => [(step, snapshot)]
  | (k, r) :: rest, step, snapshot =>
    if step < k then (step, snapshot) :: (k, r) :: rest
    else if step = k then (k, r) :: rest
    else (k, r) :: insert rest step snapshot

/-- Member `map::erase(iterator)` for the iterator at key `step`: that entry is
removed, the others stay in place. -/
def erase : SnapshotMap Rec → Int → SnapshotMap Rec
  | [], _ => []
  | (k, r) :: rest, step => if step = k then rest else (k, r) :: erase rest step

/-- Member `map::clear`. -/
def clear (_m : SnapshotMap Rec) : SnapshotMap Rec := []

end SnapshotMap

/-- Modelled from the spec: the copy constructor `GHepRecord(const GHepRecord &)`
(GHepRecord is not part of the sources at hand) makes a deep value copy, a new
record equal in value to its source. -/
def GHepRecord.copy {Rec : Type} (record : Rec) : Rec := record

/-- Conversion of an `int` to `unsigned int` (32 bit). -/
def toUnsignedInt (i : Int) : Int := i % 4294967296

/-- Conversion of an `unsigned int` back to `int` (32 bit, two's complement). -/
def toSignedInt (u : Int) : Int := if u < 2147483648 then u else u - 4294967296

/-- The object state of `GHepRecordHistory`: the flag `fIsEnabled` and the
inherited map. -/
structure GHepRecordHistory (Rec : Type) where
  fIsEnabled : Bool
  toMap : SnapshotMap Rec
  deriving DecidableEq

namespace GHepRecordHistory

variable {Rec : Type}

/-- Lines 179-182: history is enabled when the environment variable
GHEPHISTENABLE is set; `env` is the result of `gSystem->Getenv`. -/
def Enabled (env : Option String) : Bool :=
  match env with
  | some _ => true
  | none => false

/-- Lines 39-43, the default constructor: an empty map, the flag read once from
the environment. -/
def new (env : Option String) : GHepRecordHistory Rec :=
  { fIsEnabled := Enabled env, toMap := [] }

/-- Lines 58-82, `AddSnapshot(step, record)`; a null `record` is `none`. -/
def AddSnapshot (this : GHepRecordHistory Rec) (step : Int) (record : Option Rec) :
    GHepRecordHistory Rec :=
  if !this.fIsEnabled then this
  else
    match record with
    | none => this
    | some rec =>
      if this.toMap.count step == 0 then
        let snapshot := GHepRecord.copy rec
        { this with toMap := this.toMap.insert step snapshot }
      else this

/-- Lines 84-103, `PurgeHistory()`: the loop deletes the record owned by each
entry and leaves the map itself alone; `clear` then empties the map. -/
def PurgeHistory (this : GHepRecordHistory Rec) : GHepRecordHistory Rec :=
  { this with toMap := this.toMap.clear }

/-- The loop of lines 128-138, run from the iterator position whose remaining
entries, up to `end()`, are the last argument.  An entry whose key is below
`start_step` is stepped over.  An entry whose key is at least `start_step` is
erased through `history_iter` itself (line 136); that invalidates the iterator,
and the loop header then increments it, which is undefined. -/
def purgeRecentLoop (start_step : Int) (this : GHepRecordHistory Rec) :
    List (Int × Rec) → Exec (GHepRecordHistory Rec)
  | [] => Exec.returned this
  | (step, _) :: rest =>
    if step ≥ start_step then
      Exec.undefinedBehaviour { this with toMap := this.toMap.erase step }
    else purgeRecentLoop start_step this rest

/-- Lines 105-139, `PurgeRecentHistory(start_step)`. -/
def PurgeRecentHistory (this : GHepRecordHistory Rec) (start_step : Int) :
    Exec (GHepRecordHistory Rec) :=
  if start_step < -1 then Exec.returned this
  else if start_step = -1 then Exec.returned this.PurgeHistory
  else purgeRecentLoop start_step this this.toMap

/-- Lines 141-154, `Copy(history)`.  After purging, the loop runs from
`this->begin()` to `this->end()`, the object's own map, and calls `AddSnapshot` for
each entry it meets; the argument (here `_history`) is not read. -/
def Copy (this : GHepRecordHistory Rec) (_history : GHepRecordHistory Rec) :
    GHepRecordHistory Rec :=
  let this := this.PurgeHistory
  this.toMap.foldl
    (fun acc entry =>
      let step := toUnsignedInt entry.1
      let record := entry.2
      acc.AddSnapshot (toSignedInt step) (some record))
    this

/-- Lines 45-51, the copy constructor: an empty map, then `Copy`, then the flag is
read from the environment.  `uninitialised` is whatever `fIsEnabled` holds while
`Copy` runs, before line 50 assigns it. -/
def copyConstruct (env : Option String) (uninitialised : Bool)
    (history : GHepRecordHistory Rec) : GHepRecordHistory Rec :=
  let this : GHepRecordHistory Rec := { fIsEnabled := uninitialised, toMap := [] }
  let this := this.Copy history
  { this with fIsEnabled := Enabled env }

/-- The keys on which the loop of lines 128-138 calls `erase` (line 136), in the
order of the calls, when run over the given remaining entries: none for an entry
below `start_step`; the first entry at or above it is erased, and the traversal
has no defined continuation after that. -/
def purgeRecentErased (start_step : Int) : List (Int × Rec) → List Int
  | [] => []
  | (step, _) :: rest =>
    if step ≥ start_step then [step] else purgeRecentErased start_step rest

end GHepRecordHistory

/-! ### GHepRecordHistory with pointers

For the question whether a stored snapshot shares memory with the record it was
taken from, the map is read as it is declared, `map<int, GHepRecord*>`: its values
are pointers into a store of records.
-/

/-- The free store: the records allocated so far; a pointer is the position of
the record it points to. -/
abbrev Store (Rec : Type) := List Rec

namespace InStore

variable {Rec : Type}

/-- Modelled from the spec: `new GHepRecord(*record)` (GHepRecord is not part of
the sources at hand) allocates a record apart from every record allocated before
and fills it with a deep copy of its source; the result is the new store and the
pointer to the new record. -/
def newCopy (store : Store Rec) (source : Rec) : Store Rec × Nat :=
  (store ++ [GHepRecord.copy source], store.length)

/-- An in-place change of the record behind the pointer `record`. -/
def mutate (store : Store Rec) (record : Nat) (value : Rec) : Store Rec :=
  store.set record value

/-- Lines 58-82, `AddSnapshot(step, record)`, with `record` a pointer (null is
`none`) and the map holding pointers.  Reading `*record` through a pointer to no
record is undefined. -/
def AddSnapshot (store : Store Rec) (this : GHepRecordHistory Nat) (step : Int)
    (record : Option Nat) : Exec (Store Rec × GHepRecordHistory Nat) :=
  if !this.fIsEnabled then Exec.returned (store, this)
  else
    match record with
    | none => Exec.returned (store, this)
    | some ptr =>
      if this.toMap.count step == 0 then
        match store[ptr]? with
        | none => Exec.undefinedBehaviour (store, this)
        | some source =>
          let (store, snapshot) := newCopy store source
          Exec.returned (store, { this with toMap := this.toMap.insert step snapshot })
      else Exec.returned (store, this)

/-- The record value of the snapshot stored under `step`, if there is one. -/
def snapshotValue (store : Store Rec) (this : GHepRecordHistory Nat) (step : Int) :
    Option Rec :=
  match this.toMap.find step with
  | none => none
  | some snapshot => store[snapshot]?

/-! ### CreateInteractionList with pointers

For the question whether the call writes to the caller's objects, the initial
state is read as the program holds it: its target is behind a `Target*`, in a
store of targets that the caller's target shares with every target the call
allocates.  The reference `init_state` is `const`, so the probe code and the
pointer are not assignable; the target behind the pointer is.
-/

/-- An initial state whose target is held by pointer. -/
structure InitialState where
  fProbePdgC : Int
  fTarget : Nat
  deriving DecidableEq

/-- An interaction holding its own initial state, with the target of that state
held by pointer. -/
structure Interaction where
  fInitialState : InStore.InitialState
  fProcInfo : ProcessInfo
  fExclusiveTag : Option XclsTag
  deriving DecidableEq

/-- Modelled from the spec: the constructor `Interaction(init_state, proc_info)`
(Interaction is not part of the sources at hand) gives the interaction an initial
state of its own: a target allocated apart from every target allocated before and
filled with a copy of the target of `init_state`, the same probe code, and no
exclusive tag.  The result is the new store and the interaction, or `none` when
`init_state` points to no target. -/
def Interaction.new (store : Store Target) (init_state : InStore.InitialState)
    (proc_info : ProcessInfo) : Option (Store Target × InStore.Interaction) :=
  match store[init_state.fTarget]? with
  | none => none
  | some target =>
    some (store ++ [target],
      { fInitialState := { fProbePdgC := init_state.fProbePdgC, fTarget := store.length },
        fProcInfo := proc_info, fExclusiveTag := none })

/-- Modelled from the spec: `Interaction::SetExclusiveTag` attaches the tag. -/
def Interaction.SetExclusiveTag (i : InStore.Interaction) (tag : XclsTag) :
    InStore.Interaction :=
  { i with fExclusiveTag := some tag }

/-- A loop that runs its body over the entries in order and stops at the first
step that is undefined. -/
def loop {σ α : Type} (body : σ → α → Exec σ) : σ → List α → Exec σ
  | s, [] => Exec.returned s
  | s, a :: rest =>
    match body s a with
    | Exec.returned s1 => loop body s1 rest
    | Exec.undefinedBehaviour s1 => Exec.undefinedBehaviour s1

/-- Body of the loop of lines 86-107 for one entry of `nuclpdg`, on the store and
the list built so far.  Line 95 constructs the interaction; line 96 takes the
`Target*` of the interaction's initial state; line 98 writes the struck nucleon
through that pointer. -/
def loopBody (lib : PDGLibrary) (init_state : InStore.InitialState)
    (inttype : InteractionType_t) (isCharm hasP hasN : Bool)
    (state : Store Target × List InStore.Interaction) (struck_nucleon : Int) :
    Exec (Store Target × List InStore.Interaction) :=
  if (struck_nucleon == lib.kPdgProton && hasP) ||
     (struck_nucleon == lib.kPdgNeutron && hasN) then
    let proc_info : ProcessInfo :=
      { fScatteringType := ScatteringType_t.kScDeepInelastic, fInteractionType := inttype }
    match Interaction.new state.1 init_state proc_info with
    | none => Exec.undefinedBehaviour state
    | some (store, interaction) =>
      let target := interaction.fInitialState.fTarget
      match store[target]? with
      | none => Exec.undefinedBehaviour (store, state.2)
      | some pointee =>
        let store := store.set target (pointee.SetStruckNucleonPDGCode struck_nucleon)
        let interaction :=
          if isCharm then interaction.SetExclusiveTag XclsTag.default.SetCharm
          else interaction
        Exec.returned (store, state.2 ++ [interaction])
  else Exec.returned state

/-- The function `DISInteractionListGenerator::CreateInteractionList`, lines
48-116, on the store of targets: the store as the call leaves it, with the
result.  Reading `target->Z()` through a pointer to no target is undefined. -/
def CreateInteractionList (lib : PDGLibrary) (fConfig : Registry)
    (store : Store Target) (init_state : InStore.InitialState) :
    Exec (Store Target × Option (List InStore.Interaction)) :=
  let isCC := DISInteractionListGenerator.readFlag fConfig "is-CC"
  let isNC := DISInteractionListGenerator.readFlag fConfig "is-NC"
  let isCharm := DISInteractionListGenerator.readFlag fConfig "is-Charm"
  match DISInteractionListGenerator.selectInteractionType isCC isNC with
  | none => Exec.returned (store, none)
  | some inttype =>
    let nupdg := init_state.fProbePdgC
    let target := init_state.fTarget
    if !lib.IsNeutrino nupdg && !lib.IsAntiNeutrino nupdg then Exec.returned (store, none)
    else
      match store[target]? with
      | none => Exec.undefinedBehaviour (store, none)
      | some pointee =>
        let hasP := decide (pointee.Z > 0)
        let hasN := decide (pointee.N > 0)
        let nuclpdg : List Int := [lib.kPdgProton, lib.kPdgNeutron]
        match loop (loopBody lib init_state inttype isCharm hasP hasN) (store, []) nuclpdg with
        | Exec.undefinedBehaviour (store, _) => Exec.undefinedBehaviour (store, none)
        | Exec.returned (store, intlist) =>
          if intlist.length == 0 then Exec.returned (store, none)
          else Exec.returned (store, some intlist)

/-- The initial state that a pointer-holding initial state stands for: its target
read from the store; `none` when it points to no target. -/
def readInitialState (store : Store Target) (s : InStore.InitialState) :
    Option genie.InitialState :=
  match store[s.fTarget]? with
  | none => none
  | some target => some { fProbePdgC := s.fProbePdgC, fTarget := target }

/-- The interaction that a pointer-holding interaction stands for: its target
read from the store; `none` when it points to no target. -/
def readInteraction (store : Store Target) (i : InStore.Interaction) :
    Option genie.Interaction :=
  match store[i.fInitialState.fTarget]? with
  | none => none
  | some target =>
    some { fInitialState := { fProbePdgC := i.fInitialState.fProbePdgC, fTarget := target },
           fProcInfo := i.fProcInfo, fExclusiveTag := i.fExclusiveTag }

end InStore

/-! ### Concrete inputs used to run the definitions on examples -/

/-- A PDG library instance: proton 2212, neutron 2112, neutrinos 12, 14, 16. -/
def examplePDG : PDGLibrary where
  kPdgProton := 2212
  kPdgNeutron := 2112
  IsNeutrino := fun c => c == 12 || c == 14 || c == 16
  IsAntiNeutrino := fun c => c == -12 || c == -14 || c == -16

/-- A registry holding exactly the listed boolean entries. -/
def registryOf (items : List (String × Bool)) : Registry where
  Exists := fun key => (items.lookup key).isSome
  GetBool := fun key => (items.lookup key).getD false

/-- The buffer of the purge example: keys -1, 0, 1, 2, 3, history enabled. -/
def exampleHistory : GHepRecordHistory Nat :=
  { fIsEnabled := true, toMap := [(-1, 10), (0, 20), (1, 30), (2, 40), (3, 50)] }

end genie

open genie genie.DISInteractionListGenerator

/-! ## Properties of CreateInteractionList -/

/-- C1: for a neutrino or antineutrino probe on a target with Z>0 and N>0, with
is-CC true and is-Charm absent or false, the result is a list of exactly two
interactions, proton-struck first and neutron-struck second, both classified
(deep-inelastic, charged-current) and neither carrying an exclusive tag. -/
theorem C1_cc_two_nucleons (lib : PDGLibrary) (fConfig : Registry) (init_state : InitialState)
    (hprobe : lib.IsNeutrino init_state.fProbePdgC = true ∨
              lib.IsAntiNeutrino init_state.fProbePdgC = true)
    (hZ : init_state.fTarget.Z > 0) (hN : init_state.fTarget.N > 0)
    (hCCe : fConfig.Exists "is-CC" = true) (hCC : fConfig.GetBool "is-CC" = true)
    (hCharm : fConfig.Exists "is-Charm" = false ∨ fConfig.GetBool "is-Charm" = false) :
    ∃ i1 i2 : Interaction,
      CreateInteractionList lib fConfig init_state = some [i1, i2] ∧
      i1.fInitialState.fTarget.fStruckNucPDG = lib.kPdgProton ∧
      i2.fInitialState.fTarget.fStruckNucPDG = lib.kPdgNeutron ∧
      i1.fProcInfo = ⟨ScatteringType_t.kScDeepInelastic, InteractionType_t.kIntWeakCC⟩ ∧
      i2.fProcInfo = ⟨ScatteringType_t.kScDeepInelastic, InteractionType_t.kIntWeakCC⟩ ∧
      i1.fExclusiveTag = none ∧ i2.fExclusiveTag = none := by
  have hcharm : readFlag fConfig "is-Charm" = false := by
    unfold readFlag
    rcases hCharm with h | h <;> simp [h]
  have hcc : readFlag fConfig "is-CC" = true := by
    simp [readFlag, hCCe, hCC]
  have hp : (!lib.IsNeutrino init_state.fProbePdgC &&
      !lib.IsAntiNeutrino init_state.fProbePdgC) = false := by
    rcases hprobe with h | h <;> simp [h]
  refine ⟨buildInteraction init_state InteractionType_t.kIntWeakCC false lib.kPdgProton,
    buildInteraction init_state InteractionType_t.kIntWeakCC false lib.kPdgNeutron,
    ?_, rfl, rfl, rfl, rfl, rfl, rfl⟩
  simp only [CreateInteractionList, hcc, hcharm, selectInteractionType,
    InitialState.GetProbePDGCode, InitialState.GetTargetPtr, hp]
  simp [loopBody, hZ, hN]

/-- C1 at a muon neutrino on iron-56 with the configuration is-CC = true. -/
theorem C1_cc_two_nucleons_witness :
    ∃ i1 i2 : Interaction,
      CreateInteractionList examplePDG (registryOf [("is-CC", true)]) ⟨14, ⟨26, 30, 0⟩⟩
        = some [i1, i2] ∧
      i1.fInitialState.fTarget.fStruckNucPDG = examplePDG.kPdgProton ∧
      i2.fInitialState.fTarget.fStruckNucPDG = examplePDG.kPdgNeutron ∧
      i1.fProcInfo = ⟨ScatteringType_t.kScDeepInelastic, InteractionType_t.kIntWeakCC⟩ ∧
      i2.fProcInfo = ⟨ScatteringType_t.kScDeepInelastic, InteractionType_t.kIntWeakCC⟩ ∧
      i1.fExclusiveTag = none ∧ i2.fExclusiveTag = none :=
  C1_cc_two_nucleons examplePDG (registryOf [("is-CC", true)]) ⟨14, ⟨26, 30, 0⟩⟩
    (Or.inl (by decide)) (by decide) (by decide) (by decide) (by decide) (Or.inl (by decide))

/-! ## Properties of GHepRecordHistory -/

section HistoryLemmas

variable {Rec : Type}

theorem SnapshotMap.find_insert_self (m : SnapshotMap Rec) (step : Int) (v : Rec)
    (h : m.find step = none) : (m.insert step v).find step = some v := by
  induction m with
  | nil => simp [SnapshotMap.insert, SnapshotMap.find]
  | cons e rest ih =>
    obtain ⟨k, r⟩ := e
    by_cases hk : step = k
    · simp [SnapshotMap.find, hk] at h
    · have hrest : SnapshotMap.find rest step = none := by
        simpa [SnapshotMap.find, hk] using h
      by_cases hlt : step < k
      · simp [SnapshotMap.insert, SnapshotMap.find, hlt]
      · simp [SnapshotMap.insert, SnapshotMap.find, hlt, hk, ih hrest]

theorem SnapshotMap.find_insert_of_ne (m : SnapshotMap Rec) (step k : Int) (v : Rec)
    (hne : k ≠ step) : (m.insert step v).find k = m.find k := by
  induction m with
  | nil => simp [SnapshotMap.insert, SnapshotMap.find, hne]
  | cons e rest ih =>
    obtain ⟨k', r⟩ := e
    by_cases hlt : step < k'
    · simp [SnapshotMap.insert, SnapshotMap.find, hlt, hne]
    · by_cases hk : step = k'
      · simp [SnapshotMap.insert, hlt, hk]
      · simp [SnapshotMap.insert, SnapshotMap.find, hlt, hk, ih]

theorem SnapshotMap.length_insert (m : SnapshotMap Rec) (step : Int) (v : Rec)
    (h : m.find step = none) : (m.insert step v).length = m.length + 1 := by
  induction m with
  | nil => simp [SnapshotMap.insert]
  | cons e rest ih =>
    obtain ⟨k, r⟩ := e
    by_cases hk : step = k
    · simp [SnapshotMap.find, hk] at h
    · have hrest : SnapshotMap.find rest step = none := by
        simpa [SnapshotMap.find, hk] using h
      by_cases hlt : step < k
      · simp [SnapshotMap.insert, hlt]
      · simp [SnapshotMap.insert, hlt, hk, ih hrest]

theorem SnapshotMap.mem_insert (m : SnapshotMap Rec) (step : Int) (v : Rec)
    (e : Int × Rec) (he : e ∈ m.insert step v) : e = (step, v) ∨ e ∈ m := by
  induction m with
  | nil => simpa [SnapshotMap.insert] using he
  | cons e' rest ih =>
    obtain ⟨k, r⟩ := e'
    by_cases hlt : step < k
    · simpa [SnapshotMap.insert, hlt] using he
    · by_cases hk : step = k
      · right
        simpa [SnapshotMap.insert, hlt, hk] using he
      · simp only [SnapshotMap.insert, hlt, hk, if_false, List.mem_cons] at he
        rcases he with h | h
        · exact Or.inr (List.mem_cons.mpr (Or.inl h))
        · rcases ih h with h' | h'
          · exact Or.inl h'
          · exact Or.inr (List.mem_cons_of_mem _ h')

/-- Inserting keeps the keys strictly ascending. -/
theorem SnapshotMap.WellFormed_insert (m : SnapshotMap Rec) (step : Int) (v : Rec)
    (hwf : m.WellFormed) : (m.insert step v).WellFormed := by
  induction m with
  | nil => simp [SnapshotMap.insert, SnapshotMap.WellFormed]
  | cons e rest ih =>
    obtain ⟨k, r⟩ := e
    have hwf' : (∀ e ∈ rest, k < e.1) ∧ SnapshotMap.WellFormed rest := by
      simpa [SnapshotMap.WellFormed, List.pairwise_cons] using hwf
    by_cases hlt : step < k
    · have : SnapshotMap.WellFormed ((step, v) :: (k, r) :: rest) := by
        simp only [SnapshotMap.WellFormed, List.map_cons, List.pairwise_cons]
        refine ⟨?_, ?_⟩
        · intro a ha
          rcases List.mem_cons.mp ha with rfl | ha
          · exact hlt
          · obtain ⟨e, he, rfl⟩ := List.mem_map.mp ha
            exact lt_trans hlt (hwf'.1 e he)
        · simpa [SnapshotMap.WellFormed, List.pairwise_cons] using hwf
      simpa [SnapshotMap.insert, hlt] using this
    · by_cases hk : step = k
      · simpa [SnapshotMap.insert, hlt, hk] using hwf
      · simp only [SnapshotMap.insert, hlt, hk, if_false, SnapshotMap.WellFormed,
          List.map_cons, List.pairwise_cons]
        refine ⟨?_, ih hwf'.2⟩
        intro a ha
        obtain ⟨e, he, rfl⟩ := List.mem_map.mp ha
        rcases SnapshotMap.mem_insert rest step v e he with rfl | hmem
        · exact lt_of_le_of_ne (not_lt.mp hlt) (fun h => hk h.symm)
        · exact hwf'.1 e hmem

theorem SnapshotMap.count_eq_zero_iff (m : SnapshotMap Rec) (step : Int) :
    m.count step = 0 ↔ m.find step = none := by
  unfold SnapshotMap.count
  cases m.find step <;> simp

/-- On an enabled history a non-null record under a key without snapshot is
inserted. -/
theorem GHepRecordHistory.AddSnapshot_fresh (this : GHepRecordHistory Rec) (step : Int)
    (rec : Rec) (hen : this.fIsEnabled = true) (hfresh : this.toMap.find step = none) :
    this.AddSnapshot step (some rec) = { this with toMap := this.toMap.insert step rec } := by
  have hc : this.toMap.count step = 0 := (SnapshotMap.count_eq_zero_iff _ _).2 hfresh
  simp [GHepRecordHistory.AddSnapshot, hen, hc, GHepRecord.copy]

/-- A key that has a snapshot makes `AddSnapshot` return the object as it is. -/
theorem GHepRecordHistory.AddSnapshot_present (this : GHepRecordHistory Rec) (step : Int)
    (record : Option Rec) (hpresent : (this.toMap.find step).isSome = true) :
    this.AddSnapshot step record = this := by
  have hc : this.toMap.count step = 1 := by
    unfold SnapshotMap.count
    simp [hpresent]
  cases record <;> simp [GHepRecordHistory.AddSnapshot, hc]

/-- The purge loop returns normally, with the object untouched, when no remaining
key reaches `start_step`. -/
theorem GHepRecordHistory.purgeRecentLoop_returned (start_step : Int)
    (this : GHepRecordHistory Rec) (l : List (Int × Rec))
    (h : ∀ e ∈ l, e.1 < start_step) :
    GHepRecordHistory.purgeRecentLoop start_step this l = Exec.returned this := by
  induction l with
  | nil => rfl
  | cons e rest ih =>
    obtain ⟨k, r⟩ := e
    have hk : ¬ (k ≥ start_step) := not_le.mpr (h (k, r) (List.mem_cons_self _ _))
    simp only [GHepRecordHistory.purgeRecentLoop, hk, if_false]
    exact ih (fun e he => h e (List.mem_cons_of_mem _ he))

/-- The purge loop does not return normally once a remaining key reaches
`start_step`. -/
theorem GHepRecordHistory.purgeRecentLoop_undefined (start_step : Int)
    (this : GHepRecordHistory Rec) (l : List (Int × Rec))
    (h : ∃ e ∈ l, e.1 ≥ start_step) :
    ∃ s, GHepRecordHistory.purgeRecentLoop start_step this l = Exec.undefinedBehaviour s := by
  induction l with
  | nil => simp at h
  | cons e rest ih =>
    obtain ⟨k, r⟩ := e
    by_cases hk : k ≥ start_step
    · refine ⟨{ this with toMap := this.toMap.erase k }, ?_⟩
      simp only [GHepRecordHistory.purgeRecentLoop, hk, if_true]
    · obtain ⟨e, he, hge⟩ := h
      rcases List.mem_cons.mp he with rfl | hmem
      · exact absurd hge hk
      · obtain ⟨s, hs⟩ := ih ⟨e, hmem, hge⟩
        exact ⟨s, by simp only [GHepRecordHistory.purgeRecentLoop, hk, if_false, hs]⟩

/-- After `Copy` the map is empty, whatever the two histories held. -/
theorem GHepRecordHistory.Copy_toMap (this history : GHepRecordHistory Rec) :
    (this.Copy history).toMap = [] := rfl

end HistoryLemmas

/-- C2: on the buffer with keys -1, 0, 1, 2, 3, `PurgeRecentHistory(2)` does not
return with the keys -1, 0, 1: it steps over -1, 0 and 1, erases the entry of
key 2 through the loop iterator and then increments that invalidated iterator,
which is undefined; at that point the entry of key 3 is still in the buffer. -/
theorem C2_purge_recent_uses_erased_iterator :
    exampleHistory.toMap.keys = [-1, 0, 1, 2, 3] ∧
    exampleHistory.PurgeRecentHistory 2
      = Exec.undefinedBehaviour ⟨true, [(-1, 10), (0, 20), (1, 30), (3, 50)]⟩ ∧
    exampleHistory.PurgeRecentHistory 2
      ≠ Exec.returned ⟨true, [(-1, 10), (0, 20), (1, 30)]⟩ := by
  decide

/-- C3: `Copy` from a source holding the keys -1, 0, 1, 2, 3 into a new, enabled
history leaves the destination empty: key 0 has a snapshot in the source and none
in the destination.  The copy constructor gives the same empty result. -/
theorem C3_copy_leaves_destination_empty :
    ((GHepRecordHistory.new (some "1") : GHepRecordHistory Nat).Copy exampleHistory).toMap = [] ∧
    exampleHistory.toMap.find 0 = some 20 ∧
    ((GHepRecordHistory.new (some "1") : GHepRecordHistory Nat).Copy exampleHistory).toMap.find 0
      = none ∧
    (GHepRecordHistory.copyConstruct (some "1") true exampleHistory).toMap = [] := by
  decide

/-- C4, as stated, fails when the key already has a snapshot: on the enabled
history holding record 1 under key 0, `AddSnapshot(0, 2)` followed by
`AddSnapshot(0, 3)` leaves record 1 under key 0, not record 2. -/
theorem C4_counterexample :
    (⟨true, [(0, 1)]⟩ : GHepRecordHistory Nat).fIsEnabled = true ∧
    (((⟨true, [(0, 1)]⟩ : GHepRecordHistory Nat).AddSnapshot 0 (some 2)).AddSnapshot 0
      (some 3)).toMap.find 0 = some 1 ∧
    ¬ ((((⟨true, [(0, 1)]⟩ : GHepRecordHistory Nat).AddSnapshot 0 (some 2)).AddSnapshot 0
      (some 3)).toMap.find 0 = some 2) := by
  decide

/-- C4, amended: on an enabled history, if `step` has no snapshot before the first
call, then after `AddSnapshot(step, R1)` followed by `AddSnapshot(step, R2)` the
snapshot under `step` equals R1; in every case the second call leaves the whole
object unchanged, and `AddSnapshot` on a key that already has a snapshot changes
nothing, whatever the record passed. -/
theorem C4_first_writer_wins {Rec : Type} (this : GHepRecordHistory Rec) (step : Int)
    (R1 R2 : Rec) (hen : this.fIsEnabled = true) :
    (this.toMap.find step = none →
      ((this.AddSnapshot step (some R1)).AddSnapshot step (some R2)).toMap.find step
        = some R1) ∧
    (this.AddSnapshot step (some R1)).AddSnapshot step (some R2)
      = this.AddSnapshot step (some R1) ∧
    (∀ record : Option Rec, (this.toMap.find step).isSome = true →
      this.AddSnapshot step record = this) := by
  have hsecond : (this.AddSnapshot step (some R1)).AddSnapshot step (some R2)
      = this.AddSnapshot step (some R1) := by
    apply GHepRecordHistory.AddSnapshot_present
    cases hfind : this.toMap.find step with
    | none =>
      rw [GHepRecordHistory.AddSnapshot_fresh this step R1 hen hfind]
      simp [SnapshotMap.find_insert_self _ _ _ hfind]
    | some r =>
      rw [GHepRecordHistory.AddSnapshot_present this step (some R1) (by simp [hfind])]
      simp [hfind]
  refine ⟨fun hfresh => ?_, hsecond, fun record hp =>
    GHepRecordHistory.AddSnapshot_present this step record hp⟩
  rw [hsecond, GHepRecordHistory.AddSnapshot_fresh this step R1 hen hfresh]
  exact SnapshotMap.find_insert_self _ _ _ hfresh

/-- C4 amended, at a newly constructed enabled history with key 0 and the records
2 and 3. -/
theorem C4_first_writer_wins_witness :
    (((GHepRecordHistory.new (some "1") : GHepRecordHistory Nat).AddSnapshot 0
      (some 2)).AddSnapshot 0 (some 3)).toMap.find 0 = some 2 :=
  (C4_first_writer_wins (GHepRecordHistory.new (some "1") : GHepRecordHistory Nat) 0 2 3
    (by decide)).1 (by decide)

/-- C5: on an enabled history, `AddSnapshot(step, R)` with a non-null record R and
a key without snapshot stores R under `step`, leaves the snapshot of every other
key as it was, keeps the flag, and makes the buffer one entry longer. -/
theorem C5_add_snapshot_success {Rec : Type} (this : GHepRecordHistory Rec) (step : Int)
    (R : Rec) (hen : this.fIsEnabled = true) (hfresh : this.toMap.find step = none) :
    (this.AddSnapshot step (some R)).toMap.find step = some R ∧
    (∀ k : Int, k ≠ step → (this.AddSnapshot step (some R)).toMap.find k = this.toMap.find k) ∧
    (this.AddSnapshot step (some R)).toMap.length = this.toMap.length + 1 ∧
    (this.AddSnapshot step (some R)).fIsEnabled = this.fIsEnabled := by
  rw [GHepRecordHistory.AddSnapshot_fresh this step R hen hfresh]
  exact ⟨SnapshotMap.find_insert_self _ _ _ hfresh,
    fun k hk => SnapshotMap.find_insert_of_ne _ _ _ _ hk,
    SnapshotMap.length_insert _ _ _ hfresh, rfl⟩

/-- C5 at the example buffer with the new key 4 and the record 60. -/
theorem C5_add_snapshot_success_witness :
    (exampleHistory.AddSnapshot 4 (some 60)).toMap.find 4 = some 60 ∧
    (∀ k : Int, k ≠ 4 →
      (exampleHistory.AddSnapshot 4 (some 60)).toMap.find k = exampleHistory.toMap.find k) ∧
    (exampleHistory.AddSnapshot 4 (some 60)).toMap.length = exampleHistory.toMap.length + 1 ∧
    (exampleHistory.AddSnapshot 4 (some 60)).fIsEnabled = exampleHistory.fIsEnabled :=
  C5_add_snapshot_success exampleHistory 4 60 (by decide) (by decide)

/-! ## Further properties of CreateInteractionList -/

/-- A flag whose key is absent, or whose stored boolean is false, reads false. -/
theorem genie.DISInteractionListGenerator.readFlag_eq_false (fConfig : Registry)
    (key : String) (h : fConfig.Exists key = false ∨ fConfig.GetBool key = false) :
    readFlag fConfig key = false := by
  unfold readFlag
  rcases h with h | h <;> simp [h]

/-- The list built by the loop has at most two entries. -/
theorem genie.DISInteractionListGenerator.foldl_loopBody_length_le (lib : PDGLibrary)
    (init_state : InitialState) (inttype : InteractionType_t) (isCharm hasP hasN : Bool) :
    ([lib.kPdgProton, lib.kPdgNeutron].foldl
      (loopBody lib init_state inttype isCharm hasP hasN) []).length ≤ 2 := by
  simp only [List.foldl, loopBody]
  split_ifs <;> simp

/-- Without an interaction type the result is null. -/
theorem genie.DISInteractionListGenerator.CreateInteractionList_of_no_type (lib : PDGLibrary)
    (fConfig : Registry) (init_state : InitialState)
    (hsel : selectInteractionType (readFlag fConfig "is-CC") (readFlag fConfig "is-NC") = none) :
    CreateInteractionList lib fConfig init_state = none := by
  simp only [CreateInteractionList, hsel]

/-- With an interaction type the result is decided by the probe test and by the
list the loop builds. -/
theorem genie.DISInteractionListGenerator.CreateInteractionList_of_type (lib : PDGLibrary)
    (fConfig : Registry) (init_state : InitialState) (inttype : InteractionType_t)
    (hsel : selectInteractionType (readFlag fConfig "is-CC") (readFlag fConfig "is-NC")
      = some inttype) :
    CreateInteractionList lib fConfig init_state =
      if (!lib.IsNeutrino init_state.fProbePdgC && !lib.IsAntiNeutrino init_state.fProbePdgC)
      then none
      else if ([lib.kPdgProton, lib.kPdgNeutron].foldl
          (loopBody lib init_state inttype (readFlag fConfig "is-Charm")
            (decide (init_state.fTarget.Z > 0)) (decide (init_state.fTarget.N > 0))) []).length
          == 0
        then none
        else some ([lib.kPdgProton, lib.kPdgNeutron].foldl
          (loopBody lib init_state inttype (readFlag fConfig "is-Charm")
            (decide (init_state.fTarget.Z > 0)) (decide (init_state.fTarget.N > 0))) []) := by
  simp only [CreateInteractionList, hsel, InitialState.GetProbePDGCode,
    InitialState.GetTargetPtr]

/-- C6: the result is never an empty list: it is either null or a list with at
least one and at most two interactions. -/
theorem C6_never_empty_list (lib : PDGLibrary) (fConfig : Registry)
    (init_state : InitialState) :
    CreateInteractionList lib fConfig init_state = none ∨
    ∃ intlist : InteractionList,
      CreateInteractionList lib fConfig init_state = some intlist ∧
      1 ≤ intlist.length ∧ intlist.length ≤ 2 := by
  cases hsel : selectInteractionType (readFlag fConfig "is-CC") (readFlag fConfig "is-NC") with
  | none => exact Or.inl (CreateInteractionList_of_no_type lib fConfig init_state hsel)
  | some inttype =>
    rw [CreateInteractionList_of_type lib fConfig init_state inttype hsel]
    split_ifs with hprobe hlen
    · exact Or.inl rfl
    · exact Or.inl rfl
    · refine Or.inr ⟨_, rfl, ?_, foldl_loopBody_length_le _ _ _ _ _ _⟩
      have hne : ¬ (List.foldl (loopBody lib init_state inttype (readFlag fConfig "is-Charm")
          (decide (init_state.fTarget.Z > 0)) (decide (init_state.fTarget.N > 0)))
          [] [lib.kPdgProton, lib.kPdgNeutron]).length = 0 := by
        simpa using hlen
      omega

/-- C7: when neither is-CC nor is-NC is true (an absent key counts as false), the
result is null for every target, probe and value of is-Charm. -/
theorem C7_no_type_selected (lib : PDGLibrary) (fConfig : Registry)
    (init_state : InitialState)
    (hCC : fConfig.Exists "is-CC" = false ∨ fConfig.GetBool "is-CC" = false)
    (hNC : fConfig.Exists "is-NC" = false ∨ fConfig.GetBool "is-NC" = false) :
    CreateInteractionList lib fConfig init_state = none := by
  simp [CreateInteractionList, readFlag_eq_false fConfig _ hCC,
    readFlag_eq_false fConfig _ hNC, selectInteractionType]

/-- C7 at a muon neutrino on iron-56 with is-CC stored as false, is-NC absent and
is-Charm true. -/
theorem C7_no_type_selected_witness :
    CreateInteractionList examplePDG (registryOf [("is-CC", false), ("is-Charm", true)])
      ⟨14, ⟨26, 30, 0⟩⟩ = none :=
  C7_no_type_selected examplePDG (registryOf [("is-CC", false), ("is-Charm", true)])
    ⟨14, ⟨26, 30, 0⟩⟩ (Or.inr (by decide)) (Or.inl (by decide))

/-- C8: for a target with Z = 0 and N = 0 the result is null, for every
combination of the flags and every probe. -/
theorem C8_no_nucleon (lib : PDGLibrary) (fConfig : Registry) (init_state : InitialState)
    (hZ : init_state.fTarget.Z = 0) (hN : init_state.fTarget.N = 0) :
    CreateInteractionList lib fConfig init_state = none := by
  cases hsel : selectInteractionType (readFlag fConfig "is-CC") (readFlag fConfig "is-NC") with
  | none => exact CreateInteractionList_of_no_type lib fConfig init_state hsel
  | some inttype =>
    rw [CreateInteractionList_of_type lib fConfig init_state inttype hsel]
    simp [hZ, hN, loopBody]

/-- C8 at a muon neutrino on the empty target with all three flags true. -/
theorem C8_no_nucleon_witness :
    CreateInteractionList examplePDG
      (registryOf [("is-CC", true), ("is-NC", true), ("is-Charm", true)])
      ⟨14, ⟨0, 0, 0⟩⟩ = none :=
  C8_no_nucleon examplePDG (registryOf [("is-CC", true), ("is-NC", true), ("is-Charm", true)])
    ⟨14, ⟨0, 0, 0⟩⟩ rfl rfl

/-- C9: a probe that is neither a neutrino nor an antineutrino gives null, for
every target and configuration; conversely a neutrino or antineutrino probe with
is-CC or is-NC true and Z > 0 or N > 0 does not give null. -/
theorem C9_probe_validity (lib : PDGLibrary) (fConfig : Registry)
    (init_state : InitialState) :
    (lib.IsNeutrino init_state.fProbePdgC = false ∧
      lib.IsAntiNeutrino init_state.fProbePdgC = false →
        CreateInteractionList lib fConfig init_state = none) ∧
    ((lib.IsNeutrino init_state.fProbePdgC = true ∨
        lib.IsAntiNeutrino init_state.fProbePdgC = true) →
      ((fConfig.Exists "is-CC" = true ∧ fConfig.GetBool "is-CC" = true) ∨
        (fConfig.Exists "is-NC" = true ∧ fConfig.GetBool "is-NC" = true)) →
      (init_state.fTarget.Z > 0 ∨ init_state.fTarget.N > 0) →
        CreateInteractionList lib fConfig init_state ≠ none) := by
  constructor
  · rintro ⟨hnu, hanu⟩
    cases hsel : selectInteractionType (readFlag fConfig "is-CC") (readFlag fConfig "is-NC") with
    | none => exact CreateInteractionList_of_no_type lib fConfig init_state hsel
    | some inttype =>
      rw [CreateInteractionList_of_type lib fConfig init_state inttype hsel]
      simp [hnu, hanu]
  · intro hprobe hflag htarget
    have hp : (!lib.IsNeutrino init_state.fProbePdgC &&
        !lib.IsAntiNeutrino init_state.fProbePdgC) = false := by
      rcases hprobe with h | h <;> simp [h]
    have hsel : ∃ inttype, selectInteractionType (readFlag fConfig "is-CC")
        (readFlag fConfig "is-NC") = some inttype := by
      rcases hflag with ⟨he, hb⟩ | ⟨he, hb⟩
      · exact ⟨InteractionType_t.kIntWeakCC, by simp [selectInteractionType, readFlag, he, hb]⟩
      · have hnc : readFlag fConfig "is-NC" = true := by simp [readFlag, he, hb]
        by_cases hcc : readFlag fConfig "is-CC" = true
        · exact ⟨InteractionType_t.kIntWeakCC, by simp [selectInteractionType, hcc]⟩
        · exact ⟨InteractionType_t.kIntWeakNC, by simp [selectInteractionType, hcc, hnc]⟩
    obtain ⟨inttype, hsel⟩ := hsel
    rw [CreateInteractionList_of_type lib fConfig init_state inttype hsel]
    simp only [hp]
    rcases htarget with hZ | hN
    · simp only [List.foldl, loopBody]
      split_ifs <;> simp_all
    · simp only [List.foldl, loopBody]
      split_ifs <;> simp_all

/-- C9 at an electron (code 11) and at a muon antineutrino (code -14) on a free
neutron, both with is-NC true. -/
theorem C9_probe_validity_witness :
    CreateInteractionList examplePDG (registryOf [("is-NC", true)]) ⟨11, ⟨26, 30, 0⟩⟩ = none ∧
    CreateInteractionList examplePDG (registryOf [("is-NC", true)]) ⟨-14, ⟨0, 1, 0⟩⟩ ≠ none :=
  ⟨(C9_probe_validity examplePDG (registryOf [("is-NC", true)]) ⟨11, ⟨26, 30, 0⟩⟩).1
      ⟨by decide, by decide⟩,
   (C9_probe_validity examplePDG (registryOf [("is-NC", true)]) ⟨-14, ⟨0, 1, 0⟩⟩).2
      (Or.inr (by decide)) (Or.inr ⟨by decide, by decide⟩) (Or.inr (by decide))⟩

/-- C10: for a neutrino or antineutrino probe on a target with Z = 0 and N > 0,
with is-NC true and is-CC not true, the result is a list of exactly one
interaction, whose struck nucleon is the neutron and whose classification is
(deep-inelastic, neutral-current).  The two nucleon codes of the PDG library are
taken to be different. -/
theorem C10_nc_neutron_only (lib : PDGLibrary) (fConfig : Registry)
    (init_state : InitialState) (hcodes : lib.kPdgProton ≠ lib.kPdgNeutron)
    (hprobe : lib.IsNeutrino init_state.fProbePdgC = true ∨
              lib.IsAntiNeutrino init_state.fProbePdgC = true)
    (hZ : init_state.fTarget.Z = 0) (hN : init_state.fTarget.N > 0)
    (hNCe : fConfig.Exists "is-NC" = true) (hNC : fConfig.GetBool "is-NC" = true)
    (hCC : fConfig.Exists "is-CC" = false ∨ fConfig.GetBool "is-CC" = false) :
    ∃ i : Interaction,
      CreateInteractionList lib fConfig init_state = some [i] ∧
      i.fInitialState.fTarget.fStruckNucPDG = lib.kPdgNeutron ∧
      i.fProcInfo = ⟨ScatteringType_t.kScDeepInelastic, InteractionType_t.kIntWeakNC⟩ := by
  have hcc : readFlag fConfig "is-CC" = false := readFlag_eq_false fConfig _ hCC
  have hnc : readFlag fConfig "is-NC" = true := by simp [readFlag, hNCe, hNC]
  have hp : (!lib.IsNeutrino init_state.fProbePdgC &&
      !lib.IsAntiNeutrino init_state.fProbePdgC) = false := by
    rcases hprobe with h | h <;> simp [h]
  refine ⟨buildInteraction init_state InteractionType_t.kIntWeakNC
    (readFlag fConfig "is-Charm") lib.kPdgNeutron, ?_, ?_, ?_⟩
  · simp only [CreateInteractionList, hcc, hnc, selectInteractionType,
      InitialState.GetProbePDGCode, InitialState.GetTargetPtr, hp]
    simp [loopBody, hZ, hN, hcodes]
  · unfold buildInteraction
    split_ifs <;> rfl
  · unfold buildInteraction
    split_ifs <;> rfl

/-- C10 at a muon neutrino on a free neutron with is-NC true and is-CC absent. -/
theorem C10_nc_neutron_only_witness :
    ∃ i : Interaction,
      CreateInteractionList examplePDG (registryOf [("is-NC", true)]) ⟨14, ⟨0, 1, 0⟩⟩
        = some [i] ∧
      i.fInitialState.fTarget.fStruckNucPDG = examplePDG.kPdgNeutron ∧
      i.fProcInfo = ⟨ScatteringType_t.kScDeepInelastic, InteractionType_t.kIntWeakNC⟩ :=
  C10_nc_neutron_only examplePDG (registryOf [("is-NC", true)]) ⟨14, ⟨0, 1, 0⟩⟩
    (by decide) (Or.inl (by decide)) rfl (by decide) (by decide) (by decide)
    (Or.inl (by decide))

/-! ## The entries of a returned list -/

/-- A flag reads true exactly when its key exists and the stored boolean is true. -/
theorem genie.DISInteractionListGenerator.readFlag_eq_true_iff (fConfig : Registry)
    (key : String) :
    readFlag fConfig key = true ↔ fConfig.Exists key = true ∧ fConfig.GetBool key = true := by
  unfold readFlag
  cases fConfig.Exists key <;> simp

/-- The fields of the interaction built for one struck nucleon. -/
theorem genie.DISInteractionListGenerator.buildInteraction_fields (init_state : InitialState)
    (inttype : InteractionType_t) (isCharm : Bool) (struck_nucleon : Int) :
    (buildInteraction init_state inttype isCharm struck_nucleon).fInitialState
      = { init_state with
          fTarget := { init_state.fTarget with fStruckNucPDG := struck_nucleon } } ∧
    (buildInteraction init_state inttype isCharm struck_nucleon).fProcInfo
      = ⟨ScatteringType_t.kScDeepInelastic, inttype⟩ ∧
    (buildInteraction init_state inttype isCharm struck_nucleon).fExclusiveTag
      = if isCharm then some XclsTag.default.SetCharm else none := by
  unfold buildInteraction
  cases isCharm <;> exact ⟨rfl, rfl, rfl⟩

/-- Every entry of the list built by the loop was built for the proton code with
a proton available, or for the neutron code with a neutron available. -/
theorem genie.DISInteractionListGenerator.mem_foldl_loopBody (lib : PDGLibrary)
    (init_state : InitialState) (inttype : InteractionType_t) (isCharm hasP hasN : Bool)
    (i : Interaction)
    (hi : i ∈ [lib.kPdgProton, lib.kPdgNeutron].foldl
      (loopBody lib init_state inttype isCharm hasP hasN) []) :
    ∃ struck_nucleon : Int,
      i = buildInteraction init_state inttype isCharm struck_nucleon ∧
      ((struck_nucleon = lib.kPdgProton ∧ hasP = true) ∨
       (struck_nucleon = lib.kPdgNeutron ∧ hasN = true)) := by
  simp only [List.foldl, loopBody] at hi
  split_ifs at hi with hn hp hp
  · simp only [List.nil_append, List.cons_append, List.mem_cons, List.mem_singleton,
      List.not_mem_nil, or_false] at hi
    rcases hi with rfl | rfl
    · exact ⟨_, rfl, by simpa using hp⟩
    · exact ⟨_, rfl, by simpa using hn⟩
  · simp only [List.nil_append, List.mem_singleton] at hi
    subst hi
    exact ⟨_, rfl, by simpa using hn⟩
  · simp only [List.nil_append, List.mem_singleton] at hi
    subst hi
    exact ⟨_, rfl, by simpa using hp⟩
  · simp at hi

/-- A returned list is the list the loop built, for the selected interaction type. -/
theorem genie.DISInteractionListGenerator.CreateInteractionList_eq_some (lib : PDGLibrary)
    (fConfig : Registry) (init_state : InitialState) (intlist : InteractionList)
    (hres : CreateInteractionList lib fConfig init_state = some intlist) :
    ∃ inttype : InteractionType_t,
      selectInteractionType (readFlag fConfig "is-CC") (readFlag fConfig "is-NC")
        = some inttype ∧
      intlist = [lib.kPdgProton, lib.kPdgNeutron].foldl
        (loopBody lib init_state inttype (readFlag fConfig "is-Charm")
          (decide (init_state.fTarget.Z > 0)) (decide (init_state.fTarget.N > 0))) [] := by
  cases hsel : selectInteractionType (readFlag fConfig "is-CC") (readFlag fConfig "is-NC") with
  | none =>
    rw [CreateInteractionList_of_no_type lib fConfig init_state hsel] at hres
    exact absurd hres (by simp)
  | some inttype =>
    rw [CreateInteractionList_of_type lib fConfig init_state inttype hsel] at hres
    refine ⟨inttype, rfl, ?_⟩
    split_ifs at hres
    exact (Option.some.inj hres).symm

/-- C11: whenever a list is returned, every interaction in it carries the charm
exclusive tag if is-Charm is true, and none carries any exclusive tag if is-Charm
is false or absent; in particular with is-Charm and is-CC true on a target with
Z > 0 and N > 0, for a neutrino or antineutrino probe, the two produced
interactions both carry the charm tag. -/
theorem C11_charm_tag (lib : PDGLibrary) (fConfig : Registry) (init_state : InitialState) :
    (∀ intlist : InteractionList,
      CreateInteractionList lib fConfig init_state = some intlist →
        (fConfig.Exists "is-Charm" = true ∧ fConfig.GetBool "is-Charm" = true →
          ∀ i ∈ intlist, i.fExclusiveTag = some ⟨true⟩) ∧
        (fConfig.Exists "is-Charm" = false ∨ fConfig.GetBool "is-Charm" = false →
          ∀ i ∈ intlist, i.fExclusiveTag = none)) ∧
    ((lib.IsNeutrino init_state.fProbePdgC = true ∨
        lib.IsAntiNeutrino init_state.fProbePdgC = true) →
      init_state.fTarget.Z > 0 → init_state.fTarget.N > 0 →
      (fConfig.Exists "is-CC" = true ∧ fConfig.GetBool "is-CC" = true) →
      (fConfig.Exists "is-Charm" = true ∧ fConfig.GetBool "is-Charm" = true) →
      ∃ i1 i2 : Interaction,
        CreateInteractionList lib fConfig init_state = some [i1, i2] ∧
        i1.fExclusiveTag = some ⟨true⟩ ∧ i2.fExclusiveTag = some ⟨true⟩) := by
  have hall : ∀ intlist : InteractionList,
      CreateInteractionList lib fConfig init_state = some intlist →
        (fConfig.Exists "is-Charm" = true ∧ fConfig.GetBool "is-Charm" = true →
          ∀ i ∈ intlist, i.fExclusiveTag = some ⟨true⟩) ∧
        (fConfig.Exists "is-Charm" = false ∨ fConfig.GetBool "is-Charm" = false →
          ∀ i ∈ intlist, i.fExclusiveTag = none) := by
    intro intlist hres
    obtain ⟨inttype, _, hlist⟩ := CreateInteractionList_eq_some lib fConfig init_state intlist hres
    constructor
    · intro hcharm i hi
      rw [hlist] at hi
      obtain ⟨struck, rfl, _⟩ := mem_foldl_loopBody _ _ _ _ _ _ _ hi
      rw [(buildInteraction_fields _ _ _ _).2.2,
        (readFlag_eq_true_iff fConfig "is-Charm").2 hcharm]
      rfl
    · intro hcharm i hi
      rw [hlist] at hi
      obtain ⟨struck, rfl, _⟩ := mem_foldl_loopBody _ _ _ _ _ _ _ hi
      rw [(buildInteraction_fields _ _ _ _).2.2, readFlag_eq_false fConfig _ hcharm]
      rfl
  refine ⟨hall, ?_⟩
  intro hprobe hZ hN hCC hCharm
  have hcc : readFlag fConfig "is-CC" = true := (readFlag_eq_true_iff fConfig _).2 hCC
  have hp : (!lib.IsNeutrino init_state.fProbePdgC &&
      !lib.IsAntiNeutrino init_state.fProbePdgC) = false := by
    rcases hprobe with h | h <;> simp [h]
  have hres : CreateInteractionList lib fConfig init_state
      = some [buildInteraction init_state InteractionType_t.kIntWeakCC
                (readFlag fConfig "is-Charm") lib.kPdgProton,
              buildInteraction init_state InteractionType_t.kIntWeakCC
                (readFlag fConfig "is-Charm") lib.kPdgNeutron] := by
    rw [CreateInteractionList_of_type lib fConfig init_state InteractionType_t.kIntWeakCC
      (by simp [selectInteractionType, hcc])]
    simp [hp, loopBody, hZ, hN]
  exact ⟨_, _, hres, (hall _ hres).1 hCharm _ (by simp), (hall _ hres).1 hCharm _ (by simp)⟩

/-- C11 at a muon neutrino on iron-56 with is-CC and is-Charm true. -/
theorem C11_charm_tag_witness :
    ∃ i1 i2 : Interaction,
      CreateInteractionList examplePDG (registryOf [("is-CC", true), ("is-Charm", true)])
        ⟨14, ⟨26, 30, 0⟩⟩ = some [i1, i2] ∧
      i1.fExclusiveTag = some ⟨true⟩ ∧ i2.fExclusiveTag = some ⟨true⟩ :=
  (C11_charm_tag examplePDG (registryOf [("is-CC", true), ("is-Charm", true)])
    ⟨14, ⟨26, 30, 0⟩⟩).2 (Or.inl (by decide)) (by decide) (by decide)
    ⟨by decide, by decide⟩ ⟨by decide, by decide⟩

/-- C18: charged current takes precedence.  With is-CC true every interaction of a
returned list is charged-current and none is neutral-current; the result with
is-CC and is-NC both true is the same as the result of a configuration with is-CC
true, is-NC not true and the same is-Charm reading; and an interaction of a
returned list is neutral-current only when is-NC is true and is-CC is not. -/
theorem C18_cc_precedence (lib : PDGLibrary) (fConfig fConfigCC : Registry)
    (init_state : InitialState) :
    ((fConfig.Exists "is-CC" = true ∧ fConfig.GetBool "is-CC" = true) →
      ∀ intlist : InteractionList, CreateInteractionList lib fConfig init_state = some intlist →
        ∀ i ∈ intlist, i.fProcInfo.fInteractionType = InteractionType_t.kIntWeakCC ∧
          i.fProcInfo.fInteractionType ≠ InteractionType_t.kIntWeakNC) ∧
    ((fConfig.Exists "is-CC" = true ∧ fConfig.GetBool "is-CC" = true) →
      (fConfig.Exists "is-NC" = true ∧ fConfig.GetBool "is-NC" = true) →
      (fConfigCC.Exists "is-CC" = true ∧ fConfigCC.GetBool "is-CC" = true) →
      (fConfigCC.Exists "is-NC" = false ∨ fConfigCC.GetBool "is-NC" = false) →
      readFlag fConfigCC "is-Charm" = readFlag fConfig "is-Charm" →
        CreateInteractionList lib fConfig init_state
          = CreateInteractionList lib fConfigCC init_state) ∧
    (∀ intlist : InteractionList, CreateInteractionList lib fConfig init_state = some intlist →
      ∀ i ∈ intlist, i.fProcInfo.fInteractionType = InteractionType_t.kIntWeakNC →
        (fConfig.Exists "is-NC" = true ∧ fConfig.GetBool "is-NC" = true) ∧
        ¬ (fConfig.Exists "is-CC" = true ∧ fConfig.GetBool "is-CC" = true)) := by
  have htype : ∀ intlist : InteractionList,
      CreateInteractionList lib fConfig init_state = some intlist →
      ∀ i ∈ intlist, selectInteractionType (readFlag fConfig "is-CC") (readFlag fConfig "is-NC")
        = some i.fProcInfo.fInteractionType := by
    intro intlist hres i hi
    obtain ⟨inttype, hsel, hlist⟩ :=
      CreateInteractionList_eq_some lib fConfig init_state intlist hres
    rw [hlist] at hi
    obtain ⟨struck, rfl, _⟩ := mem_foldl_loopBody _ _ _ _ _ _ _ hi
    rw [(buildInteraction_fields _ _ _ _).2.1]
    exact hsel
  refine ⟨?_, ?_, ?_⟩
  · intro hCC intlist hres i hi
    have h := htype intlist hres i hi
    rw [(readFlag_eq_true_iff fConfig _).2 hCC] at h
    simp only [selectInteractionType, if_true, Option.some.injEq] at h
    rw [← h]
    exact ⟨rfl, by decide⟩
  · intro hCC _ hCC2 _ hcharm
    have h1 : selectInteractionType (readFlag fConfig "is-CC") (readFlag fConfig "is-NC")
        = some InteractionType_t.kIntWeakCC := by
      simp [selectInteractionType, (readFlag_eq_true_iff fConfig _).2 hCC]
    have h2 : selectInteractionType (readFlag fConfigCC "is-CC") (readFlag fConfigCC "is-NC")
        = some InteractionType_t.kIntWeakCC := by
      simp [selectInteractionType, (readFlag_eq_true_iff fConfigCC _).2 hCC2]
    rw [CreateInteractionList_of_type lib fConfig init_state _ h1,
      CreateInteractionList_of_type lib fConfigCC init_state _ h2, hcharm]
  · intro intlist hres i hi hnc
    have h := htype intlist hres i hi
    rw [hnc] at h
    have hcc : readFlag fConfig "is-CC" = false := by
      cases hf : readFlag fConfig "is-CC"
      · rfl
      · rw [hf] at h
        simp [selectInteractionType] at h
    rw [hcc] at h
    have hncf : readFlag fConfig "is-NC" = true := by
      cases hf : readFlag fConfig "is-NC"
      · rw [hf] at h
        simp [selectInteractionType] at h
      · rfl
    refine ⟨(readFlag_eq_true_iff fConfig _).1 hncf, fun hcon => ?_⟩
    rw [(readFlag_eq_true_iff fConfig _).2 hcon] at hcc
    exact absurd hcc (by decide)

/-- C18 at a muon neutrino on iron-56: the configuration with is-CC and is-NC both
true gives the same result as the one with is-CC alone. -/
theorem C18_cc_precedence_witness :
    (∀ i ∈ ([⟨⟨14, ⟨26, 30, 2212⟩⟩, ⟨ScatteringType_t.kScDeepInelastic,
                InteractionType_t.kIntWeakCC⟩, none⟩,
             ⟨⟨14, ⟨26, 30, 2112⟩⟩, ⟨ScatteringType_t.kScDeepInelastic,
                InteractionType_t.kIntWeakCC⟩, none⟩] : InteractionList),
      i.fProcInfo.fInteractionType = InteractionType_t.kIntWeakCC ∧
      i.fProcInfo.fInteractionType ≠ InteractionType_t.kIntWeakNC) ∧
    CreateInteractionList examplePDG (registryOf [("is-CC", true), ("is-NC", true)])
        ⟨14, ⟨26, 30, 0⟩⟩
      = CreateInteractionList examplePDG (registryOf [("is-CC", true), ("is-NC", false)])
        ⟨14, ⟨26, 30, 0⟩⟩ :=
  ⟨(C18_cc_precedence examplePDG (registryOf [("is-CC", true), ("is-NC", true)])
      (registryOf [("is-CC", true), ("is-NC", false)]) ⟨14, ⟨26, 30, 0⟩⟩).1
      ⟨by decide, by decide⟩ _ (by decide),
   (C18_cc_precedence examplePDG (registryOf [("is-CC", true), ("is-NC", true)])
      (registryOf [("is-CC", true), ("is-NC", false)]) ⟨14, ⟨26, 30, 0⟩⟩).2.1
      ⟨by decide, by decide⟩ ⟨by decide, by decide⟩ ⟨by decide, by decide⟩
      (Or.inr (by decide)) (by decide)⟩

/-- With different proton and neutron codes the loop builds the proton entry when a
proton is available, followed by the neutron entry when a neutron is available. -/
theorem genie.DISInteractionListGenerator.foldl_loopBody_of_ne (lib : PDGLibrary)
    (init_state : InitialState) (inttype : InteractionType_t) (isCharm hasP hasN : Bool)
    (hcodes : lib.kPdgProton ≠ lib.kPdgNeutron) :
    [lib.kPdgProton, lib.kPdgNeutron].foldl
        (loopBody lib init_state inttype isCharm hasP hasN) []
      = (if hasP then [buildInteraction init_state inttype isCharm lib.kPdgProton] else [])
        ++ (if hasN then [buildInteraction init_state inttype isCharm lib.kPdgNeutron]
            else []) := by
  have hcodes2 : lib.kPdgNeutron ≠ lib.kPdgProton := fun h => hcodes h.symm
  cases hasP <;> cases hasN <;> simp [loopBody, hcodes, hcodes2]

/-- C19: every interaction of a returned list carries the probe code and the Z and
N of the input, its struck nucleon is the proton or the neutron, a proton-struck
entry appears only if Z > 0 and a neutron-struck entry only if N > 0, no two
entries have the same struck nucleon, and the length of the list is the number
of nucleon species with a positive count.  The two nucleon codes of the PDG
library are taken to be different. -/
theorem C19_entries_follow_input (lib : PDGLibrary) (fConfig : Registry)
    (init_state : InitialState) (intlist : InteractionList)
    (hcodes : lib.kPdgProton ≠ lib.kPdgNeutron)
    (hres : CreateInteractionList lib fConfig init_state = some intlist) :
    (∀ i ∈ intlist,
      i.fInitialState.fProbePdgC = init_state.fProbePdgC ∧
      i.fInitialState.fTarget.Z = init_state.fTarget.Z ∧
      i.fInitialState.fTarget.N = init_state.fTarget.N ∧
      (i.fInitialState.fTarget.fStruckNucPDG = lib.kPdgProton ∨
       i.fInitialState.fTarget.fStruckNucPDG = lib.kPdgNeutron)) ∧
    (∀ i ∈ intlist, i.fInitialState.fTarget.fStruckNucPDG = lib.kPdgProton →
      init_state.fTarget.Z > 0) ∧
    (∀ i ∈ intlist, i.fInitialState.fTarget.fStruckNucPDG = lib.kPdgNeutron →
      init_state.fTarget.N > 0) ∧
    (intlist.map (fun i => i.fInitialState.fTarget.fStruckNucPDG)).Nodup ∧
    intlist.length = (if init_state.fTarget.Z > 0 then 1 else 0)
                   + (if init_state.fTarget.N > 0 then 1 else 0) := by
  have hcodes2 : lib.kPdgNeutron ≠ lib.kPdgProton := fun h => hcodes h.symm
  obtain ⟨inttype, _, hlist⟩ := CreateInteractionList_eq_some lib fConfig init_state intlist hres
  have hmem : ∀ i ∈ intlist, ∃ struck_nucleon : Int,
      i = buildInteraction init_state inttype (readFlag fConfig "is-Charm") struck_nucleon ∧
      ((struck_nucleon = lib.kPdgProton ∧ init_state.fTarget.Z > 0) ∨
       (struck_nucleon = lib.kPdgNeutron ∧ init_state.fTarget.N > 0)) := by
    intro i hi
    rw [hlist] at hi
    obtain ⟨struck, hb, hs⟩ := mem_foldl_loopBody _ _ _ _ _ _ _ hi
    exact ⟨struck, hb, by simpa using hs⟩
  refine ⟨?_, ?_, ?_, ?_, ?_⟩
  · intro i hi
    obtain ⟨struck, rfl, hs⟩ := hmem i hi
    rw [(buildInteraction_fields _ _ _ _).1]
    exact ⟨rfl, rfl, rfl, hs.imp (fun h => h.1) (fun h => h.1)⟩
  · intro i hi hstruck
    obtain ⟨struck, rfl, hs⟩ := hmem i hi
    rw [(buildInteraction_fields _ _ _ _).1] at hstruck
    rcases hs with ⟨_, h⟩ | ⟨hk, _⟩
    · exact h
    · exact absurd (hk.symm.trans hstruck) hcodes2
  · intro i hi hstruck
    obtain ⟨struck, rfl, hs⟩ := hmem i hi
    rw [(buildInteraction_fields _ _ _ _).1] at hstruck
    rcases hs with ⟨hk, _⟩ | ⟨_, h⟩
    · exact absurd (hk.symm.trans hstruck) hcodes
    · exact h
  · rw [hlist, foldl_loopBody_of_ne _ _ _ _ _ _ hcodes]
    by_cases hZ : init_state.fTarget.Z > 0 <;> by_cases hN : init_state.fTarget.N > 0 <;>
      simp [hZ, hN, (buildInteraction_fields _ _ _ _).1, hcodes]
  · rw [hlist, foldl_loopBody_of_ne _ _ _ _ _ _ hcodes]
    by_cases hZ : init_state.fTarget.Z > 0 <;> by_cases hN : init_state.fTarget.N > 0 <;>
      simp [hZ, hN]

/-- C19 at a muon neutrino on a free neutron with is-NC true: the returned list is
the single neutron-struck interaction. -/
theorem C19_entries_follow_input_witness :
    (∀ i ∈ ([⟨⟨14, ⟨0, 1, 2112⟩⟩, ⟨ScatteringType_t.kScDeepInelastic,
                InteractionType_t.kIntWeakNC⟩, none⟩] : InteractionList),
      i.fInitialState.fTarget.fStruckNucPDG = examplePDG.kPdgNeutron →
        (⟨14, ⟨0, 1, 0⟩⟩ : InitialState).fTarget.N > 0) ∧
    ([⟨⟨14, ⟨0, 1, 2112⟩⟩, ⟨ScatteringType_t.kScDeepInelastic,
          InteractionType_t.kIntWeakNC⟩, none⟩] : InteractionList).length
      = (if (⟨14, ⟨0, 1, 0⟩⟩ : InitialState).fTarget.Z > 0 then 1 else 0)
      + (if (⟨14, ⟨0, 1, 0⟩⟩ : InitialState).fTarget.N > 0 then 1 else 0) :=
  ⟨(C19_entries_follow_input examplePDG (registryOf [("is-NC", true)]) ⟨14, ⟨0, 1, 0⟩⟩ _
      (by decide) (by decide)).2.2.1,
   (C19_entries_follow_input examplePDG (registryOf [("is-NC", true)]) ⟨14, ⟨0, 1, 0⟩⟩ _
      (by decide) (by decide)).2.2.2.2⟩

/-! ## Further properties of GHepRecordHistory -/

/-- A disabled history is returned by `AddSnapshot` as it is. -/
theorem genie.GHepRecordHistory.AddSnapshot_disabled {Rec : Type}
    (this : GHepRecordHistory Rec) (step : Int) (record : Option Rec)
    (hdis : this.fIsEnabled = false) : this.AddSnapshot step record = this := by
  simp [GHepRecordHistory.AddSnapshot, hdis]

/-- A null record makes `AddSnapshot` return the object as it is. -/
theorem genie.GHepRecordHistory.AddSnapshot_null {Rec : Type}
    (this : GHepRecordHistory Rec) (step : Int) : this.AddSnapshot step none = this := by
  unfold GHepRecordHistory.AddSnapshot
  split_ifs <;> rfl

/-- Any sequence of `AddSnapshot` calls returns a disabled history as it is. -/
theorem genie.GHepRecordHistory.foldl_AddSnapshot_disabled {Rec : Type}
    (calls : List (Int × Option Rec)) (this : GHepRecordHistory Rec)
    (hdis : this.fIsEnabled = false) :
    calls.foldl (fun h call => h.AddSnapshot call.1 call.2) this = this := by
  induction calls with
  | nil => rfl
  | cons call rest ih =>
    rw [List.foldl_cons, GHepRecordHistory.AddSnapshot_disabled this _ _ hdis]
    exact ih

/-- C12: with the toggle absent at construction, after any finite sequence of
`AddSnapshot` calls on the newly constructed history, with any keys and any
records (null included), the history is still disabled and its buffer is empty,
so no key has a snapshot. -/
theorem C12_disabled_history_stays_empty {Rec : Type} (calls : List (Int × Option Rec)) :
    (calls.foldl (fun h call => h.AddSnapshot call.1 call.2)
      (GHepRecordHistory.new none : GHepRecordHistory Rec)).toMap = [] ∧
    (∀ step : Int, (calls.foldl (fun h call => h.AddSnapshot call.1 call.2)
      (GHepRecordHistory.new none : GHepRecordHistory Rec)).toMap.find step = none) ∧
    (calls.foldl (fun h call => h.AddSnapshot call.1 call.2)
      (GHepRecordHistory.new none : GHepRecordHistory Rec)).fIsEnabled = false := by
  rw [GHepRecordHistory.foldl_AddSnapshot_disabled calls _ rfl]
  exact ⟨rfl, fun _ => rfl, rfl⟩

/-- C13: for every history and every `start_step` below -1, `PurgeRecentHistory`
returns with the object identical to the one before the call. -/
theorem C13_purge_recent_invalid_step {Rec : Type} (this : GHepRecordHistory Rec)
    (start_step : Int) (hstep : start_step < -1) :
    this.PurgeRecentHistory start_step = Exec.returned this := by
  simp [GHepRecordHistory.PurgeRecentHistory, hstep]

/-- C13 at the example buffer with `start_step` -5. -/
theorem C13_purge_recent_invalid_step_witness :
    exampleHistory.PurgeRecentHistory (-5) = Exec.returned exampleHistory :=
  C13_purge_recent_invalid_step exampleHistory (-5) (by decide)

/-- C14: `PurgeRecentHistory(-1)` returns with the object that `PurgeHistory()`
produces, and that object has an empty buffer (no key has a snapshot) and the
flag it had; `PurgeHistory` is total and empties the buffer whatever it held. -/
theorem C14_purge_recent_minus_one {Rec : Type} (this : GHepRecordHistory Rec) :
    this.PurgeRecentHistory (-1) = Exec.returned this.PurgeHistory ∧
    this.PurgeHistory.toMap = [] ∧
    (∀ step : Int, this.PurgeHistory.toMap.find step = none) ∧
    this.PurgeHistory.fIsEnabled = this.fIsEnabled := by
  refine ⟨?_, rfl, fun _ => rfl, rfl⟩
  simp [GHepRecordHistory.PurgeRecentHistory]

/-- C15, as stated, fails on a disabled history and on a key that already has a
snapshot: after `AddSnapshot(0, null)` a later `AddSnapshot(0, 5)` does not store
record 5, on the disabled empty history (key 0 stays without snapshot) and on the
enabled history holding record 1 under key 0 (record 1 stays). -/
theorem C15_counterexample :
    (⟨false, []⟩ : GHepRecordHistory Nat).fIsEnabled = false ∧
    (((⟨false, []⟩ : GHepRecordHistory Nat).AddSnapshot 0 none).AddSnapshot 0
      (some 5)).toMap.find 0 = none ∧
    (((⟨true, [(0, 1)]⟩ : GHepRecordHistory Nat).AddSnapshot 0 none).AddSnapshot 0
      (some 5)).toMap.find 0 = some 1 := by
  decide

/-- C15, amended: for every history, enabled or not, and every key,
`AddSnapshot(step, null)` returns the object as it is, so `step` has the snapshot
it had or none; a later `AddSnapshot(step, R)` with a non-null R gives what it
gives without the null call, and on an enabled history without snapshot under
`step` it stores R. -/
theorem C15_null_record_ignored {Rec : Type} (this : GHepRecordHistory Rec) (step : Int)
    (R : Rec) :
    this.AddSnapshot step none = this ∧
    (this.AddSnapshot step none).toMap.find step = this.toMap.find step ∧
    (this.AddSnapshot step none).AddSnapshot step (some R) = this.AddSnapshot step (some R) ∧
    (this.fIsEnabled = true → this.toMap.find step = none →
      ((this.AddSnapshot step none).AddSnapshot step (some R)).toMap.find step = some R) := by
  have hnull := GHepRecordHistory.AddSnapshot_null this step
  refine ⟨hnull, by rw [hnull], by rw [hnull], fun hen hfresh => ?_⟩
  rw [hnull, GHepRecordHistory.AddSnapshot_fresh this step R hen hfresh]
  exact SnapshotMap.find_insert_self _ _ _ hfresh

/-- C15 amended, at the example buffer with the new key 4: after the null call the
record 60 is still stored by the next call. -/
theorem C15_null_record_ignored_witness :
    ((exampleHistory.AddSnapshot 4 none).AddSnapshot 4 (some 60)).toMap.find 4 = some 60 :=
  (C15_null_record_ignored exampleHistory 4 60).2.2.2 (by decide) (by decide)

/-- The loop calls `erase` on no key when no remaining key reaches `start_step`. -/
theorem genie.GHepRecordHistory.purgeRecentErased_nil {Rec : Type} (start_step : Int)
    (l : List (Int × Rec)) (h : ∀ e ∈ l, e.1 < start_step) :
    GHepRecordHistory.purgeRecentErased start_step l = [] := by
  induction l with
  | nil => rfl
  | cons e rest ih =>
    obtain ⟨k, r⟩ := e
    have hk : ¬ (k ≥ start_step) := not_le.mpr (h (k, r) (List.mem_cons_self _ _))
    simp only [GHepRecordHistory.purgeRecentErased, hk, if_false]
    exact ih (fun e he => h e (List.mem_cons_of_mem _ he))

/-- C20: for every history and every `start_step` that is at least 0 and above
every stored key (the empty buffer included), `PurgeRecentHistory` returns with
the object identical to the one before the call, and its traversal calls
`erase` on no key. -/
theorem C20_purge_recent_nothing_qualifies {Rec : Type} (this : GHepRecordHistory Rec)
    (start_step : Int) (hstep : 0 ≤ start_step)
    (habove : ∀ e ∈ this.toMap, e.1 < start_step) :
    this.PurgeRecentHistory start_step = Exec.returned this ∧
    GHepRecordHistory.purgeRecentErased start_step this.toMap = [] := by
  refine ⟨?_, GHepRecordHistory.purgeRecentErased_nil start_step _ habove⟩
  have h1 : ¬ start_step < -1 := by omega
  have h2 : ¬ start_step = -1 := by omega
  simp only [GHepRecordHistory.PurgeRecentHistory, h1, h2, if_false]
  exact GHepRecordHistory.purgeRecentLoop_returned start_step this _ habove

/-- C20 at the example buffer (keys up to 3) with `start_step` 4, and at the empty
buffer with `start_step` 0. -/
theorem C20_purge_recent_nothing_qualifies_witness :
    (exampleHistory.PurgeRecentHistory 4 = Exec.returned exampleHistory ∧
      GHepRecordHistory.purgeRecentErased 4 exampleHistory.toMap = []) ∧
    ((GHepRecordHistory.new (some "1") : GHepRecordHistory Nat).PurgeRecentHistory 0
        = Exec.returned (GHepRecordHistory.new (some "1")) ∧
      GHepRecordHistory.purgeRecentErased 0
        (GHepRecordHistory.new (some "1") : GHepRecordHistory Nat).toMap = []) :=
  ⟨C20_purge_recent_nothing_qualifies exampleHistory 4 (by decide) (by decide),
   C20_purge_recent_nothing_qualifies (GHepRecordHistory.new (some "1")) 0 (by decide)
     (by decide)⟩

/-! ## Snapshots and the records they were taken from -/

/-- On an enabled history, a pointer to a record and a key without snapshot make
`AddSnapshot` allocate one new record, a copy of the source, at the end of the
store, and insert the pointer to it. -/
theorem genie.InStore.AddSnapshot_allocates {Rec : Type} (store : Store Rec)
    (this : GHepRecordHistory Nat) (step : Int) (record : Nat) (value : Rec)
    (hen : this.fIsEnabled = true) (hfresh : this.toMap.find step = none)
    (hrecord : store[record]? = some value) :
    InStore.AddSnapshot store this step (some record)
      = Exec.returned (store ++ [value],
          { this with toMap := this.toMap.insert step store.length }) := by
  have hc : this.toMap.count step = 0 := (SnapshotMap.count_eq_zero_iff _ _).2 hfresh
  simp [InStore.AddSnapshot, hen, hc, hrecord, InStore.newCopy, GHepRecord.copy]

/-- C17: on an enabled history, with a key `k` without snapshot and a pointer to
a live record of value `v`, `AddSnapshot(k, R)` returns, the snapshot then stored
under `k` has value `v`, and after any in-place change of the live record the
snapshot stored under `k` still has value `v`, while the live record has the new
value. -/
theorem C17_snapshot_isolation {Rec : Type} (store : Store Rec)
    (this : GHepRecordHistory Nat) (k : Int) (R : Nat) (v changed : Rec)
    (hen : this.fIsEnabled = true) (hfresh : this.toMap.find k = none)
    (hlive : store[R]? = some v) :
    ∃ (store1 : Store Rec) (this1 : GHepRecordHistory Nat),
      InStore.AddSnapshot store this k (some R) = Exec.returned (store1, this1) ∧
      InStore.snapshotValue store1 this1 k = some v ∧
      InStore.snapshotValue (InStore.mutate store1 R changed) this1 k = some v ∧
      (InStore.mutate store1 R changed)[R]? = some changed := by
  have hlt : R < store.length := by
    rcases Nat.lt_or_ge R store.length with h | h
    · exact h
    · rw [List.getElem?_eq_none h] at hlive
      exact absurd hlive (by simp)
  refine ⟨_, _, InStore.AddSnapshot_allocates store this k R v hen hfresh hlive, ?_, ?_, ?_⟩
  · simp only [InStore.snapshotValue, SnapshotMap.find_insert_self _ _ _ hfresh]
    exact List.getElem?_concat_length store v
  · simp only [InStore.snapshotValue, SnapshotMap.find_insert_self _ _ _ hfresh,
      InStore.mutate]
    rw [List.getElem?_set_ne (Nat.ne_of_lt hlt)]
    exact List.getElem?_concat_length store v
  · simp only [InStore.mutate]
    rw [List.getElem?_set_self (by rw [List.length_append]; omega)]

/-- C17 in a store with one live record of value 7: the snapshot taken under key 0
has value 7 before and after the live record is changed to 8. -/
theorem C17_snapshot_isolation_witness :
    ∃ (store1 : Store Nat) (this1 : GHepRecordHistory Nat),
      InStore.AddSnapshot [7] (GHepRecordHistory.new (some "1")) 0 (some 0)
        = Exec.returned (store1, this1) ∧
      InStore.snapshotValue store1 this1 0 = some 7 ∧
      InStore.snapshotValue (InStore.mutate store1 0 8) this1 0 = some 7 ∧
      (InStore.mutate store1 0 8)[0]? = some 8 :=
  C17_snapshot_isolation [7] (GHepRecordHistory.new (some "1")) 0 0 7 8
    (by decide) (by decide) (by decide)

/-! ## The caller's initial state -/

/-- One pass of the loop body, started with the caller's pointer at a target:
either nothing happens, or one target is allocated at the end of the store,
holding the caller's target with the struck nucleon set, and the interaction
pointing to it is appended. -/
theorem store_loopBody_live (lib : PDGLibrary) (init_state : InStore.InitialState)
    (inttype : InteractionType_t) (isCharm hasP hasN : Bool) (store : Store Target)
    (intlist : List InStore.Interaction) (struck_nucleon : Int) (target : Target)
    (hlive : store[init_state.fTarget]? = some target) :
    InStore.loopBody lib init_state inttype isCharm hasP hasN (store, intlist) struck_nucleon
      = Exec.returned
          (if (struck_nucleon == lib.kPdgProton && hasP) ||
              (struck_nucleon == lib.kPdgNeutron && hasN) then
            (store ++ [target.SetStruckNucleonPDGCode struck_nucleon],
             intlist ++ [{ fInitialState :=
                             { fProbePdgC := init_state.fProbePdgC, fTarget := store.length },
                           fProcInfo := ⟨ScatteringType_t.kScDeepInelastic, inttype⟩,
                           fExclusiveTag :=
                             if isCharm then some XclsTag.default.SetCharm else none }])
          else (store, intlist)) := by
  unfold InStore.loopBody
  by_cases hcond : ((struck_nucleon == lib.kPdgProton && hasP) ||
      (struck_nucleon == lib.kPdgNeutron && hasN)) = true
  · have hnew : (store ++ [target])[store.length]? = some target :=
      List.getElem?_concat_length store target
    have hset : (store ++ [target]).set store.length
        (target.SetStruckNucleonPDGCode struck_nucleon)
        = store ++ [target.SetStruckNucleonPDGCode struck_nucleon] := by
      rw [List.set_append_right _ _ (Nat.le_refl _)]
      simp
    rw [if_pos hcond, if_pos hcond]
    simp only [InStore.Interaction.new, hlive, hnew, hset]
    cases isCharm <;> rfl
  · rw [if_neg hcond, if_neg hcond]

/-- An interaction that reads as a value in a store reads as the same value after
targets are allocated at the end of the store. -/
theorem store_readInteraction_append (store ext : Store Target)
    (i : InStore.Interaction) (v : Interaction)
    (hread : InStore.readInteraction store i = some v) :
    InStore.readInteraction (store ++ ext) i = some v := by
  unfold InStore.readInteraction at hread ⊢
  cases hptr : store[i.fInitialState.fTarget]? with
  | none => simp [hptr] at hread
  | some target =>
    have hlt : i.fInitialState.fTarget < store.length := by
      rcases Nat.lt_or_ge i.fInitialState.fTarget store.length with h | h
      · exact h
      · rw [List.getElem?_eq_none h] at hptr
        exact absurd hptr (by simp)
    rw [List.getElem?_append_left hlt, hptr]
    simpa [hptr] using hread

/-- The whole loop, started with the caller's pointer at a target and with a list
that reads as `vals`: it returns; every target that was in the store before is
as it was; the list built reads as the list that the loop of the value-level
`CreateInteractionList` builds from `vals`; and every interaction added points to
a target allocated by the loop. -/
theorem store_loop_live (lib : PDGLibrary)
    (init_state : InStore.InitialState) (inttype : InteractionType_t)
    (isCharm hasP hasN : Bool) (target : Target) (nuclpdg : List Int) :
    ∀ (store : Store Target) (intlist : List InStore.Interaction) (vals : List Interaction),
      store[init_state.fTarget]? = some target →
      intlist.map (InStore.readInteraction store) = vals.map some →
      ∃ (store1 : Store Target) (intlist1 : List InStore.Interaction),
        InStore.loop (InStore.loopBody lib init_state inttype isCharm hasP hasN)
          (store, intlist) nuclpdg = Exec.returned (store1, intlist1) ∧
        (∀ q : Nat, q < store.length → store1[q]? = store[q]?) ∧
        intlist1.map (InStore.readInteraction store1)
          = (nuclpdg.foldl (loopBody lib ⟨init_state.fProbePdgC, target⟩ inttype isCharm
              hasP hasN) vals).map some ∧
        (∀ i ∈ intlist1, i ∈ intlist ∨ store.length ≤ i.fInitialState.fTarget) := by
  induction nuclpdg with
  | nil =>
    intro store intlist vals _ hread
    exact ⟨store, intlist, rfl, fun _ _ => rfl, hread, fun i hi => Or.inl hi⟩
  | cons struck rest ih =>
    intro store intlist vals hlive hread
    have hlt : init_state.fTarget < store.length := by
      rcases Nat.lt_or_ge init_state.fTarget store.length with h | h
      · exact h
      · rw [List.getElem?_eq_none h] at hlive
        exact absurd hlive (by simp)
    by_cases hcond : ((struck == lib.kPdgProton && hasP) ||
        (struck == lib.kPdgNeutron && hasN)) = true
    · have hstep := store_loopBody_live lib init_state inttype isCharm hasP hasN store
        intlist struck target hlive
      rw [if_pos hcond] at hstep
      have hlive1 : (store ++ [target.SetStruckNucleonPDGCode struck])[init_state.fTarget]?
          = some target := by
        rw [List.getElem?_append_left hlt, hlive]
      have hold : ∀ i ∈ intlist,
          InStore.readInteraction (store ++ [target.SetStruckNucleonPDGCode struck]) i
            = InStore.readInteraction store i := by
        intro i hi
        have hmem : InStore.readInteraction store i ∈ vals.map some := by
          rw [← hread]
          exact List.mem_map_of_mem _ hi
        obtain ⟨v, _, hv⟩ := List.mem_map.mp hmem
        rw [store_readInteraction_append store _ i v hv.symm, ← hv]
      have hnew : InStore.readInteraction (store ++ [target.SetStruckNucleonPDGCode struck])
          { fInitialState := { fProbePdgC := init_state.fProbePdgC, fTarget := store.length },
            fProcInfo := ⟨ScatteringType_t.kScDeepInelastic, inttype⟩,
            fExclusiveTag := if isCharm then some XclsTag.default.SetCharm else none }
          = some (buildInteraction ⟨init_state.fProbePdgC, target⟩ inttype isCharm struck) := by
        simp only [InStore.readInteraction, List.getElem?_concat_length]
        cases isCharm <;> rfl
      have hread1 : (intlist ++
            [({ fInitialState :=
                  { fProbePdgC := init_state.fProbePdgC, fTarget := store.length },
                fProcInfo := ⟨ScatteringType_t.kScDeepInelastic, inttype⟩,
                fExclusiveTag := if isCharm then some XclsTag.default.SetCharm else none } :
              InStore.Interaction)]).map
            (InStore.readInteraction (store ++ [target.SetStruckNucleonPDGCode struck]))
          = (vals ++ [buildInteraction ⟨init_state.fProbePdgC, target⟩ inttype isCharm
              struck]).map some := by
        rw [List.map_append, List.map_append, List.map_congr_left hold, hread]
        simp only [List.map_cons, List.map_nil, hnew]
      obtain ⟨store1, intlist1, hloop, hkeep, hvals, hptr⟩ := ih _ _ _ hlive1 hread1
      refine ⟨store1, intlist1, ?_, ?_, ?_, ?_⟩
      · simp only [InStore.loop, hstep]
        exact hloop
      · intro q hq
        rw [hkeep q (by rw [List.length_append]; omega), List.getElem?_append_left hq]
      · rw [hvals, List.foldl_cons]
        simp only [loopBody, hcond, if_true]
      · intro i hi
        rcases hptr i hi with h | h
        · rcases List.mem_append.mp h with h | h
          · exact Or.inl h
          · rw [List.mem_singleton.mp h]
            exact Or.inr (Nat.le_refl _)
        · rw [List.length_append] at h
          exact Or.inr (by omega)
    · have hstep := store_loopBody_live lib init_state inttype isCharm hasP hasN store
        intlist struck target hlive
      rw [if_neg hcond] at hstep
      obtain ⟨store1, intlist1, hloop, hkeep, hvals, hptr⟩ := ih store intlist vals hlive hread
      refine ⟨store1, intlist1, ?_, hkeep, ?_, hptr⟩
      · simp only [InStore.loop, hstep]
        exact hloop
      · rw [hvals, List.foldl_cons]
        simp only [loopBody, hcond]
        rfl

/-- C16: the call does not change its input.  With the caller's initial state
pointing to a target, the call returns; after it the caller's initial state reads
as before (same probe code, same Z, N and struck-nucleon setting) and so does
every target that was in the store; the result reads as the result of the
value-level `CreateInteractionList`; and every produced interaction points to a
target allocated by the call, not to the caller's, so the struck nucleon is set
only on the interaction's own copy. -/
theorem C16_input_not_mutated (lib : PDGLibrary) (fConfig : Registry)
    (store : Store Target) (init_state : InStore.InitialState) (target : Target)
    (hlive : store[init_state.fTarget]? = some target) :
    ∃ (store1 : Store Target) (result : Option (List InStore.Interaction)),
      InStore.CreateInteractionList lib fConfig store init_state
        = Exec.returned (store1, result) ∧
      InStore.readInitialState store1 init_state = some ⟨init_state.fProbePdgC, target⟩ ∧
      InStore.readInitialState store1 init_state = InStore.readInitialState store init_state ∧
      (∀ q : Nat, q < store.length → store1[q]? = store[q]?) ∧
      result.map (List.map (InStore.readInteraction store1))
        = (CreateInteractionList lib fConfig ⟨init_state.fProbePdgC, target⟩).map
            (List.map some) ∧
      (∀ intlist : List InStore.Interaction, result = some intlist →
        ∀ i ∈ intlist, store.length ≤ i.fInitialState.fTarget ∧
          i.fInitialState.fTarget ≠ init_state.fTarget) := by
  have hlt : init_state.fTarget < store.length := by
    rcases Nat.lt_or_ge init_state.fTarget store.length with h | h
    · exact h
    · rw [List.getElem?_eq_none h] at hlive
      exact absurd hlive (by simp)
  have hread0 : InStore.readInitialState store init_state
      = some ⟨init_state.fProbePdgC, target⟩ := by
    simp only [InStore.readInitialState, hlive]
  cases hsel : selectInteractionType (readFlag fConfig "is-CC") (readFlag fConfig "is-NC") with
  | none =>
    refine ⟨store, none, ?_, hread0, rfl, fun _ _ => rfl, ?_, ?_⟩
    · simp only [InStore.CreateInteractionList, hsel]
    · rw [CreateInteractionList_of_no_type lib fConfig _ hsel]
      rfl
    · intro intlist h
      exact absurd h (by simp)
  | some inttype =>
    by_cases hprobe : (!lib.IsNeutrino init_state.fProbePdgC &&
        !lib.IsAntiNeutrino init_state.fProbePdgC) = true
    · refine ⟨store, none, ?_, hread0, rfl, fun _ _ => rfl, ?_, ?_⟩
      · simp only [InStore.CreateInteractionList, hsel, hprobe, if_true]
      · rw [CreateInteractionList_of_type lib fConfig _ inttype hsel]
        simp only [hprobe, if_true]
        rfl
      · intro intlist h
        exact absurd h (by simp)
    · obtain ⟨store1, intlist1, hloop, hkeep, hvals, hptr⟩ :=
        store_loop_live lib init_state inttype (readFlag fConfig "is-Charm")
          (decide (target.Z > 0)) (decide (target.N > 0)) target
          [lib.kPdgProton, lib.kPdgNeutron] store [] [] hlive rfl
      have hread1 : InStore.readInitialState store1 init_state
          = some ⟨init_state.fProbePdgC, target⟩ := by
        simp only [InStore.readInitialState, hkeep _ hlt, hlive]
      have hlen : intlist1.length
          = ([lib.kPdgProton, lib.kPdgNeutron].foldl
              (loopBody lib ⟨init_state.fProbePdgC, target⟩ inttype
                (readFlag fConfig "is-Charm") (decide (target.Z > 0))
                (decide (target.N > 0))) []).length := by
        have h := congrArg List.length hvals
        simpa using h
      have hfresh : ∀ i ∈ intlist1, store.length ≤ i.fInitialState.fTarget ∧
          i.fInitialState.fTarget ≠ init_state.fTarget := by
        intro i hi
        rcases hptr i hi with h | h
        · exact absurd h (List.not_mem_nil _)
        · exact ⟨h, by omega⟩
      by_cases hempty : (intlist1.length == 0) = true
      · refine ⟨store1, none, ?_, hread1, hread1.trans hread0.symm, hkeep, ?_, ?_⟩
        · simp only [InStore.CreateInteractionList, hsel, hprobe, hlive, hloop, hempty]
          rfl
        · rw [CreateInteractionList_of_type lib fConfig _ inttype hsel]
          rw [hlen] at hempty
          simp only [hprobe, hempty, if_true]
          rfl
        · intro intlist h
          exact absurd h (by simp)
      · refine ⟨store1, some intlist1, ?_, hread1, hread1.trans hread0.symm, hkeep, ?_, ?_⟩
        · simp only [InStore.CreateInteractionList, hsel, hprobe, hlive, hloop, hempty]
          rfl
        · rw [CreateInteractionList_of_type lib fConfig _ inttype hsel]
          rw [hlen] at hempty
          simp only [hprobe, hempty]
          simp only [Option.map_some', hvals]
          rfl
        · intro intlist h
          rw [← Option.some.inj h]
          exact hfresh

/-- C16 at a store holding iron-56 as its only target, a muon neutrino pointing to
it, and is-CC true. -/
theorem C16_input_not_mutated_witness :
    ∃ (store1 : Store Target) (result : Option (List InStore.Interaction)),
      InStore.CreateInteractionList examplePDG (registryOf [("is-CC", true)])
        [⟨26, 30, 0⟩] ⟨14, 0⟩ = Exec.returned (store1, result) ∧
      InStore.readInitialState store1 ⟨14, 0⟩ = some ⟨14, ⟨26, 30, 0⟩⟩ ∧
      InStore.readInitialState store1 ⟨14, 0⟩
        = InStore.readInitialState [⟨26, 30, 0⟩] ⟨14, 0⟩ ∧
      (∀ q : Nat, q < ([⟨26, 30, 0⟩] : Store Target).length →
        store1[q]? = ([⟨26, 30, 0⟩] : Store Target)[q]?) ∧
      result.map (List.map (InStore.readInteraction store1))
        = (CreateInteractionList examplePDG (registryOf [("is-CC", true)])
            ⟨14, ⟨26, 30, 0⟩⟩).map (List.map some) ∧
      (∀ intlist : List InStore.Interaction, result = some intlist →
        ∀ i ∈ intlist, ([⟨26, 30, 0⟩] : Store Target).length ≤ i.fInitialState.fTarget ∧
          i.fInitialState.fTarget ≠ (⟨14, 0⟩ : InStore.InitialState).fTarget) :=
  C16_input_not_mutated examplePDG (registryOf [("is-CC", true)]) [⟨26, 30, 0⟩] ⟨14, 0⟩
    ⟨26, 30, 0⟩ (by decide)
